import Mathlib

/-!
Verification of the two model-complexity search algorithms of this OpenNN fork:

* `SelectivePruning::perform_inputs_selection` (src/opennn/selective_pruning.cpp),
  a greedy backward feature-elimination loop over a boolean input mask with an
  `error_ratios` table using the magic float `1.0e20` as an "already handled"
  sentinel;
* `SimulatedAnnealingOrder::perform_order_selection` (the simulated-annealing
  search over the hidden-unit count), with its windowed candidate sampling,
  Boltzmann acceptance rule, cooling schedule and failure counter.

Doubles are modelled as rationals (`ℚ`); the real exponential used by the
Boltzmann probability is abstracted as an oracle field, so acceptance-rule
theorems hold for every choice of that function, in particular the real `exp`.

External collaborators of the two loops live in repository code that is not
part of src/ (`NeuralNetwork::prune_input` / `grow_input`,
`PerformanceFunctional::calculate_selection_error`,
`InputsSelectionAlgorithm::perform_model_evaluation`,
`calculate_random_uniform`).  They are modelled from the spec (sections 4 and
6): the oracle is a deterministic function from the active-input configuration
to (training error, selection error); deactivating input `i` and reactivating
it restores the model exactly, and `set_parameters` of a snapshot restores the
parameter vector; random draws are an injected stream, consumed one value per
call in program order.

All loop state that the claims mention is carried explicitly; a step returns
`none` exactly when the C++ would index a vector out of bounds (undefined
behaviour), which is what the safety claim is about.
-/

namespace OpenNN

/-- The magic float `1.0e20` used by `error_ratios` as sentinel. -/
def sentinel : ℚ := 100000000000000000000

/-- `current_inputs.count_occurrences(true)`. -/
def countTrue (l : List Bool) : ℕ := l.count true

/-- Equality test on `ℚ`, the C++ `==` on doubles, phrased through the
primitive comparison so that concrete runs evaluate. -/
def ratEq (a b : ℚ) : Bool := !(Rat.blt a b) && !(Rat.blt b a)

/-- Modelled from the spec: `NeuralNetwork::prune_input(i)` (not in src/)
deactivates the `i`-th currently-active input of the live network; the mask is
over the original input positions, order preserved. -/
def pruneLive : List Bool → ℕ → List Bool
  | [], _ => []
  | true :: rest, 0 => false :: rest
  | true :: rest, j + 1 => true :: pruneLive rest j
  | false :: rest, j => false :: pruneLive rest j

/-- Lines 281-286: `index = 0; while(error_ratios[index] == 1e20) index++;`.
Returns the number of leading sentinel entries; `none` when the whole table is
sentinel, in which case the C++ reads one past the end of the vector. -/
def skipSentinels (ratios : List ℚ) : Option ℕ :=
  ratios.findIdx? (fun x => !(ratEq x sentinel))

/-- The external performance oracle of the pruning search (spec sections 4.1
and 6), plus the wall clock.  `selection_error` models
`calculate_selection_error` evaluated on a given active-input configuration
(deterministic: no retraining happens inside the loop and parameters follow
the snapshot/restore discipline); `performance` models
`calculate_performance`; `elapsed_time k` is the wall clock measured in
iteration `k`. -/
structure PruneOracle where
  selection_error : List Bool → ℚ
  performance : List Bool → ℚ
  initial_parameters : List ℚ
  elapsed_time : ℕ → ℚ

/-- Configuration fields of `SelectivePruning` read by the loop. -/
structure PruneConfig where
  inputs_number : ℕ
  minimum_inputs_number : ℕ
  selection_performance_goal : ℚ
  maximum_iterations_number : ℕ
  maximum_time : ℚ
deriving DecidableEq

/-- Stopping reasons of the pruning search (lines 358-410). -/
inductive PruneStoppingCondition where
  | MaximumTime
  | SelectionPerformanceGoal
  | MaximumIterations
  | MinimumInputs
  | AlgorithmFinished
deriving DecidableEq

/-- The loop state of `perform_inputs_selection`.  `current_inputs` is the
bookkeeping mask, `net_inputs` the set of inputs actually active in the live
network (they coincide as long as the index arithmetic of the commit step maps
table positions correctly), `final_selection` is `final[1]`: the selection
error of the initial evaluation at line 238, never reassigned afterwards.
`best_ratio_index`/`best_error` mirror the locals of the same names as left by
the most recent iteration. -/
structure PruneState where
  current_inputs : List Bool
  net_inputs : List Bool
  error_ratios : List ℚ
  parameters : List ℚ
  current_training_performance : ℚ
  current_selection_performance : ℚ
  final_selection : ℚ
  best_ratio_index : ℕ
  best_error : ℚ
  iterations : ℕ
  ended : Bool
  stopping_condition : Option PruneStoppingCondition
deriving DecidableEq

/-- Lines 288-302, the inner evaluation pass.  `rem` counts the remaining
iterations of `for(i...)`, `i` and `index` are the loop variables, reads and
writes of `error_ratios` at `i+index` return `none` when out of bounds.
Modelled from the spec for the parts outside src/: `prune_input(i)` /
`grow_input()` deactivate and exactly reactivate the `i`-th live input, and
line 301's `set_parameters(current_parameters)` restores the snapshot, so the
parameter vector after every exploratory evaluation is `snapshot`. -/
def innerLoop (O : PruneOracle) (netMask : List Bool) (snapshot : List ℚ) :
    ℕ → ℕ → ℕ → List ℚ → List ℚ → Option (List ℚ × List ℚ)
  | 0, _, _, ratios, params => some (ratios, params)
  | rem + 1, i, index, ratios, params =>
    match ratios[i + index]? with
    | none => none
    | some v =>
      let index1 := if ratEq v sentinel then index + 1 else index
      if i + index1 < ratios.length then
        innerLoop O netMask snapshot rem (i + 1) index1
          (ratios.set (i + index1) (O.selection_error (pruneLive netMask i))) snapshot
      else
        none

/-- The whole evaluation pass of one outer iteration: the sentinel-skipping
scan of lines 283-286 followed by `innerLoop`. -/
def innerPassOf (O : PruneOracle) (s : PruneState) : Option (List ℚ × List ℚ) :=
  match skipSentinels s.error_ratios with
  | none => none
  | some idx0 =>
    innerLoop O s.net_inputs s.parameters (countTrue s.current_inputs) 0 idx0
      s.error_ratios s.parameters

/-- `Vector::calculate_minimal_index`: index of the first occurrence of the
minimal element (ties resolved by lowest index). -/
def minimalIndexAux : List ℚ → ℕ → ℕ → ℚ → ℕ
  | [], _, bi, _ => bi
  | x :: xs, i, bi, bv =>
    if x < bv then minimalIndexAux xs (i + 1) i x else minimalIndexAux xs (i + 1) bi bv

/-- `Vector::calculate_minimal_index` on the whole table. -/
def calculate_minimal_index : List ℚ → ℕ
  | [] => 0
  | x :: xs => minimalIndexAux xs 1 0 x

/-- Lines 320-326: the number of sentinel entries strictly before position `p`
of the (post-pass) table, subtracted from `best_ratio_index` to recover the
live-network index to prune. -/
def sentinelsBefore (ratios : List ℚ) (p : ℕ) : ℕ :=
  ((ratios.take p).filter (fun x => ratEq x sentinel)).length

/-- Lines 358-410, the stopping-criteria chain, evaluated on the updated
state.  Branch b tests `final[1]` (the `final_selection` field), exactly as
line 370 does. -/
def pruneApplyStopping (cfg : PruneConfig) (s : PruneState) (elapsed : ℚ) : PruneState :=
  if cfg.maximum_time ≤ elapsed then
    { s with ended := true, stopping_condition := some PruneStoppingCondition.MaximumTime }
  else if s.final_selection < cfg.selection_performance_goal then
    { s with ended := true,
             stopping_condition := some PruneStoppingCondition.SelectionPerformanceGoal }
  else if cfg.maximum_iterations_number ≤ s.iterations then
    { s with ended := true, stopping_condition := some PruneStoppingCondition.MaximumIterations }
  else if countTrue s.current_inputs ≤ cfg.minimum_inputs_number then
    { s with ended := true, stopping_condition := some PruneStoppingCondition.MinimumInputs }
  else if countTrue s.current_inputs = 1 ∨ s.current_selection_performance ≤ s.best_error then
    { s with ended := true, stopping_condition := some PruneStoppingCondition.AlgorithmFinished }
  else s

/-- Lines 304-356: pick the minimal table entry, accept the removal when it is
strictly below the current selection performance (line 310), commit the mask,
map the table position to the live-network index by discounting post-pass
sentinels (lines 320-326), re-evaluate both performances on the resulting
network, mark the chosen table position with the sentinel (line 333), then run
the stopping chain. -/
def pruneUpdate (O : PruneOracle) (s : PruneState) (ratios1 params1 : List ℚ) : PruneState :=
  let best := calculate_minimal_index ratios1
  let bestErr := ratios1.getD best 0
  let accept : Bool := decide (bestErr < s.current_selection_performance)
  let inputs1 := if accept then s.current_inputs.set best false else s.current_inputs
  let liveIdx := best - sentinelsBefore ratios1 best
  let net1 := if accept then pruneLive s.net_inputs liveIdx else s.net_inputs
  { current_inputs := inputs1, net_inputs := net1,
    error_ratios := ratios1.set best sentinel,
    parameters := params1,
    current_training_performance := O.performance net1,
    current_selection_performance := O.selection_error net1,
    final_selection := s.final_selection,
    best_ratio_index := best, best_error := bestErr,
    iterations := s.iterations + 1,
    ended := s.ended, stopping_condition := s.stopping_condition }

/-- The whole commit phase of one outer iteration. -/
def pruneCommit (O : PruneOracle) (cfg : PruneConfig) (s : PruneState)
    (ratios1 : List ℚ) (params1 : List ℚ) : PruneState :=
  pruneApplyStopping cfg (pruneUpdate O s ratios1 params1) (O.elapsed_time s.iterations)

/-- One outer iteration of the while loop at lines 275-427.  `none` exactly
when the C++ indexes `error_ratios` out of bounds. -/
def pruneStep (O : PruneOracle) (cfg : PruneConfig) (s : PruneState) : Option PruneState :=
  match innerPassOf O s with
  | none => none
  | some (ratios1, params1) => some (pruneCommit O cfg s ratios1 params1)

/-- Lines 202-241: all inputs active, `error_ratios` zero-initialised
(line 230), both performances and `final` from the initial evaluation of the
full configuration (spec-modelled: `perform_model_evaluation` is the same
oracle evaluated on the all-active configuration). -/
def pruneInit (O : PruneOracle) (cfg : PruneConfig) : PruneState :=
  let inputs := List.replicate cfg.inputs_number true
  { current_inputs := inputs, net_inputs := inputs,
    error_ratios := List.replicate cfg.inputs_number 0,
    parameters := O.initial_parameters,
    current_training_performance := O.performance inputs,
    current_selection_performance := O.selection_error inputs,
    final_selection := O.selection_error inputs,
    best_ratio_index := 0, best_error := 0,
    iterations := 0, ended := false, stopping_condition := none }

/-- The state after at most `k` outer iterations (the loop stalls on an ended
state; `none` once an iteration hit an out-of-bounds table access). -/
def pruneRun (O : PruneOracle) (cfg : PruneConfig) : ℕ → Option PruneState
  | 0 => some (pruneInit O cfg)
  | k + 1 =>
    match pruneRun O cfg k with
    | none => none
    | some s => if s.ended then some s else pruneStep O cfg s

/-- The C-style cast `(size_t)(...)` of a nonnegative double: floor. -/
def natFloor (q : ℚ) : ℕ := (Int.floor q).toNat

/-- The external collaborators of the order search (spec sections 4.2 and 6).
`performances n` models `calculate_performances(n)` returning
(training performance, generalization performance) at order `n`;
`parameters_order` models `get_parameters_order`; `random_uniform` is the
injected stream of `calculate_random_uniform(0.,1.)` draws, consumed one per
call in program order; `exp` abstracts the real exponential used by the
Boltzmann probability (theorems below hold for every such function, in
particular the true exponential); `elapsed_time k` is the wall clock measured
in iteration `k`. -/
structure OrderOracle where
  performances : ℕ → ℚ × ℚ
  parameters_order : ℕ → List ℚ
  random_uniform : ℕ → ℚ
  exp : ℚ → ℚ
  elapsed_time : ℕ → ℚ

/-- Configuration fields of `SimulatedAnnealingOrder` read by the loop. -/
structure OrderConfig where
  minimum_order : ℕ
  maximum_order : ℕ
  cooling_rate : ℚ
  minimum_temperature : ℚ
  tolerance : ℚ
  generalization_performance_goal : ℚ
  maximum_generalization_failures : ℕ
  maximum_iterations_number : ℕ
  maximum_time : ℚ
deriving DecidableEq

/-- Stopping reasons of the order search (lines 358-390). -/
inductive OrderStoppingCondition where
  | MinimumTemperature
  | MaximumTime
  | GeneralizationPerformanceGoal
  | MaximumGeneralizationFailures
  | MaximumIterations
deriving DecidableEq

/-- The loop state of `perform_order_selection`.  `rand_pos` is the index of
the next unconsumed value of the random stream. -/
structure OrderState where
  optimal_order : ℕ
  optimum_performance : ℚ × ℚ
  optimum_parameters : List ℚ
  temperature : ℚ
  iterations : ℕ
  generalization_failures : ℕ
  rand_pos : ℕ
  ended : Bool
  stopping_condition : Option OrderStoppingCondition
deriving DecidableEq

/-- `(maximum_order - minimum_order)/3`, in size_t arithmetic (the bounds are
well ordered in every configuration considered here). -/
def windowRadius (cfg : OrderConfig) : ℕ :=
  (cfg.maximum_order - cfg.minimum_order) / 3

/-- Line 290: `upper_bound = fmin(maximum_order, optimal_order + radius)`. -/
def windowUpper (cfg : OrderConfig) (opt : ℕ) : ℕ :=
  min cfg.maximum_order (opt + windowRadius cfg)

/-- Lines 291-294: `lower_bound = minimum_order` when
`optimal_order <= radius`, else `optimal_order - radius` (note: the guard
compares `optimal_order` itself against the radius, not its distance from
`minimum_order`). -/
def windowLower (cfg : OrderConfig) (opt : ℕ) : ℕ :=
  if opt ≤ windowRadius cfg then cfg.minimum_order else opt - windowRadius cfg

/-- `(size_t)(lower_bound + u*(upper_bound - lower_bound))`. -/
def drawOrder (L U : ℕ) (u : ℚ) : ℕ :=
  natFloor ((L : ℚ) + u * ((U - L : ℕ) : ℚ))

/-- Lines 297-305: the rejection-sampling while loop.  Each pass of the loop
consumes one draw, increments `random_failures`, and once that counter has
reached 5 overrides the candidate with `optimal_order - 1` when the optimum is
not at `minimum_order`, else with `optimal_order + 1` when it is not at
`maximum_order`.  `none` models the infinite loop that occurs when neither
override applies and every draw collides (e.g. when
`minimum_order = maximum_order`). -/
def genLoop (cfg : OrderConfig) (rand : ℕ → ℚ) (opt L U : ℕ) :
    ℕ → ℕ → ℕ → ℕ → Option (ℕ × ℕ)
  | 0, _, _, _ => none
  | fuel + 1, pos, failures, current =>
    if current = opt then
      genLoop cfg rand opt L U fuel (pos + 1) (failures + 1)
        (if 5 ≤ failures + 1 ∧ opt ≠ cfg.minimum_order then opt - 1
         else if 5 ≤ failures + 1 ∧ opt ≠ cfg.maximum_order then opt + 1
         else drawOrder L U (rand pos))
    else some (current, pos)

/-- Lines 290-306: one candidate generation, starting from stream position
`pos`; returns the candidate order and the next unconsumed stream position.
Fuel 8 is enough for every terminating execution: the loop is entered only on
a collision and the override at `random_failures = 5` ends it after at most
six passes whenever one of the two override branches can apply. -/
def genCandidate (cfg : OrderConfig) (rand : ℕ → ℚ) (opt pos : ℕ) : Option (ℕ × ℕ) :=
  genLoop cfg rand opt (windowLower cfg opt) (windowUpper cfg opt) 8 (pos + 1) 0
    (drawOrder (windowLower cfg opt) (windowUpper cfg opt) (rand pos))

/-- Lines 358-390: the stopping chain of the order search, evaluated on the
updated state (note the strict `>` of the time test at line 366). -/
def orderApplyStopping (cfg : OrderConfig) (s : OrderState) (elapsed : ℚ) : OrderState :=
  if s.temperature < cfg.minimum_temperature then
    { s with ended := true, stopping_condition := some OrderStoppingCondition.MinimumTemperature }
  else if cfg.maximum_time < elapsed then
    { s with ended := true, stopping_condition := some OrderStoppingCondition.MaximumTime }
  else if s.optimum_performance.2 < cfg.generalization_performance_goal then
    { s with ended := true,
             stopping_condition := some OrderStoppingCondition.GeneralizationPerformanceGoal }
  else if cfg.maximum_generalization_failures ≤ s.generalization_failures then
    { s with ended := true,
             stopping_condition := some OrderStoppingCondition.MaximumGeneralizationFailures }
  else if cfg.maximum_iterations_number ≤ s.iterations then
    { s with ended := true, stopping_condition := some OrderStoppingCondition.MaximumIterations }
  else s

/-- Lines 313-321, the rejection test: reject when the Boltzmann probability
`fmin(1, exp(-(candidate error - optimum error)/temperature))` is `<=` the
fresh uniform draw, or when the candidate error is within `tolerance` of the
optimum while the candidate order is `>=` the optimal order. -/
def orderReject (O : OrderOracle) (cfg : OrderConfig) (s : OrderState)
    (current_order pos1 : ℕ) : Bool :=
  decide (min 1 (O.exp (-((O.performances current_order).2 - s.optimum_performance.2) /
      s.temperature)) ≤ O.random_uniform pos1) ||
    decide (|s.optimum_performance.2 - (O.performances current_order).2| ≤ cfg.tolerance ∧
      s.optimal_order ≤ current_order)

/-- Lines 308-400 after candidate generation: evaluate the candidate, apply
the rejection test, update the optimum on acceptance or count a
generalization failure on rejection, cool the temperature (line 354,
unconditionally), bump the iteration counter, then run the stopping chain. -/
def orderUpdate (O : OrderOracle) (cfg : OrderConfig) (s : OrderState)
    (current_order pos1 : ℕ) : OrderState :=
  let cp := O.performances current_order
  let reject : Bool := orderReject O cfg s current_order pos1
  { optimal_order := if reject then s.optimal_order else current_order,
    optimum_performance := if reject then s.optimum_performance else cp,
    optimum_parameters :=
      if reject then s.optimum_parameters else O.parameters_order current_order,
    temperature := cfg.cooling_rate * s.temperature,
    iterations := s.iterations + 1,
    generalization_failures :=
      if reject then s.generalization_failures + 1 else s.generalization_failures,
    rand_pos := pos1 + 1,
    ended := s.ended, stopping_condition := s.stopping_condition }

/-- The whole commit phase of one iteration of the order search. -/
def orderCommit (O : OrderOracle) (cfg : OrderConfig) (s : OrderState)
    (current_order pos1 : ℕ) : OrderState :=
  orderApplyStopping cfg (orderUpdate O cfg s current_order pos1) (O.elapsed_time s.iterations)

/-- One iteration of the while loop at lines 288-402; `none` models the
non-terminating candidate generation. -/
def orderStep (O : OrderOracle) (cfg : OrderConfig) (s : OrderState) : Option OrderState :=
  match genCandidate cfg O.random_uniform s.optimal_order s.rand_pos with
  | none => none
  | some (current_order, pos1) => some (orderCommit O cfg s current_order pos1)

/-- Lines 244-252: draw the initial order uniformly from
`[minimum_order, maximum_order]` (stream position 0), evaluate it, and
initialize the temperature to its generalization performance. -/
def orderInit (O : OrderOracle) (cfg : OrderConfig) : OrderState :=
  let opt := natFloor ((cfg.minimum_order : ℚ) +
    O.random_uniform 0 * ((cfg.maximum_order - cfg.minimum_order : ℕ) : ℚ))
  { optimal_order := opt,
    optimum_performance := O.performances opt,
    optimum_parameters := O.parameters_order opt,
    temperature := (O.performances opt).2,
    iterations := 0, generalization_failures := 0, rand_pos := 1,
    ended := false, stopping_condition := none }

/-- The state after at most `k` iterations of the order search. -/
def orderRun (O : OrderOracle) (cfg : OrderConfig) : ℕ → Option OrderState
  | 0 => some (orderInit O cfg)
  | k + 1 =>
    match orderRun O cfg k with
    | none => none
    | some s => if s.ended then some s else orderStep O cfg s

/-- The acceptance condition of the claim: the fresh uniform draw is strictly
below `min(1, exp(-(candidate error - optimum error)/temperature))` and it is
not the case that the candidate error is within `tolerance` of the optimum
while the candidate order is at least the optimal order. -/
def saAccept (O : OrderOracle) (cfg : OrderConfig) (s : OrderState)
    (current_order pos1 : ℕ) : Prop :=
  O.random_uniform pos1 <
      min 1 (O.exp (-((O.performances current_order).2 - s.optimum_performance.2) /
        s.temperature)) ∧
    ¬(|s.optimum_performance.2 - (O.performances current_order).2| ≤ cfg.tolerance ∧
      s.optimal_order ≤ current_order)

/-- A two-input pruning instance with a well-behaved oracle (no selection
error collides with the sentinel): full configuration errs 10, dropping input
0 errs 1, dropping input 1 errs 3. -/
def selErrTwo (m : List Bool) : ℚ :=
  if m = [true, true] then 10
  else if m = [false, true] then 1
  else if m = [true, false] then 3
  else 9

/-- Oracle for the two-input instance. -/
def oracleTwo : PruneOracle :=
  { selection_error := selErrTwo, performance := fun _ => 2,
    initial_parameters := [], elapsed_time := fun _ => 0 }

/-- Configuration for the two-input instance: goal 5, so after the first
removal the current selection error 1 is below the goal while the frozen
initial error 10 is not. -/
def cfgTwo : PruneConfig :=
  { inputs_number := 2, minimum_inputs_number := 1,
    selection_performance_goal := 5, maximum_iterations_number := 10,
    maximum_time := 100 }

/-- A three-input pruning instance whose oracle returns exactly the sentinel
value `1e20` for the configuration with input 0 removed.  That value is a
perfectly possible selection error, but the loop treats it as its in-band
"already handled" marker, which desynchronizes the table bookkeeping. -/
def selErrThree (m : List Bool) : ℚ :=
  if m = [true, true, true] then 5
  else if m = [false, true, true] then sentinel
  else if m = [true, false, true] then 3
  else if m = [true, true, false] then 4
  else if m = [false, false, true] then 7
  else 9

/-- Oracle for the three-input instance. -/
def oracleThree : PruneOracle :=
  { selection_error := selErrThree, performance := fun _ => 2,
    initial_parameters := [], elapsed_time := fun _ => 0 }

/-- Configuration for the three-input instance (no unrelated stopping
predicate can fire during the first two iterations). -/
def cfgThree : PruneConfig :=
  { inputs_number := 3, minimum_inputs_number := 1,
    selection_performance_goal := 0, maximum_iterations_number := 10,
    maximum_time := 100 }

/-- Order-search configuration with `minimum_order = 4`, for which the
candidate window's lower bound falls below `minimum_order`. -/
def cfgOrderFour : OrderConfig :=
  { minimum_order := 4, maximum_order := 10, cooling_rate := mkRat 1 2,
    minimum_temperature := mkRat 1 1000, tolerance := mkRat 1 100,
    generalization_performance_goal := 0,
    maximum_generalization_failures := 3, maximum_iterations_number := 10,
    maximum_time := 100 }

/-- Order-search oracle whose random stream is constantly 0 (a legal value of
`calculate_random_uniform(0.,1.)`). -/
def oracleOrderZero : OrderOracle :=
  { performances := fun n => ((n : ℚ), 8 + (n : ℚ)),
    parameters_order := fun n => [(n : ℚ)],
    random_uniform := fun _ => 0,
    exp := fun _ => mkRat 1 2,
    elapsed_time := fun _ => 0 }

/-- A small order-search instance for witnesses: orders 1..10, stream
constantly 1/3, stub exponential 1/2. -/
def cfgOrderOne : OrderConfig :=
  { minimum_order := 1, maximum_order := 10, cooling_rate := mkRat 1 2,
    minimum_temperature := mkRat 1 1000, tolerance := mkRat 1 100,
    generalization_performance_goal := 0,
    maximum_generalization_failures := 3, maximum_iterations_number := 10,
    maximum_time := 100 }

/-- Oracle for the witness order-search instance. -/
def oracleOrderOne : OrderOracle :=
  { performances := fun n => ((n : ℚ), 4 + (n : ℚ)),
    parameters_order := fun n => [(n : ℚ)],
    random_uniform := fun _ => mkRat 1 3,
    exp := fun _ => mkRat 1 2,
    elapsed_time := fun _ => 0 }

/-- Validation errors raised by the configuration setters. -/
inductive ConfigurationError where
  | cooling_rate_not_positive
  | cooling_rate_not_less_than_one
  | minimum_inputs_number_not_positive
deriving DecidableEq

/-- `SimulatedAnnealingOrder::set_cooling_rate` (lines 123-150): reject a new
rate `<= 0` or `>= 1` before the member assignment, so a rejected call leaves
the stored configuration untouched. -/
def set_cooling_rate (s : OrderConfig) (new_cooling_rate : ℚ) :
    OrderConfig × Option ConfigurationError :=
  if new_cooling_rate ≤ 0 then (s, some ConfigurationError.cooling_rate_not_positive)
  else if 1 ≤ new_cooling_rate then (s, some ConfigurationError.cooling_rate_not_less_than_one)
  else ({ s with cooling_rate := new_cooling_rate }, none)

/-- `SelectivePruning::set_minimum_inputs_number` (lines 119-137): reject a
new value `<= 0` (that is, zero) before the member assignment. -/
def set_minimum_inputs_number (s : PruneConfig) (new_minimum_inputs_number : ℕ) :
    PruneConfig × Option ConfigurationError :=
  if new_minimum_inputs_number ≤ 0 then
    (s, some ConfigurationError.minimum_inputs_number_not_positive)
  else ({ s with minimum_inputs_number := new_minimum_inputs_number }, none)

lemma ratEq_iff (a b : ℚ) : ratEq a b = true ↔ a = b := by
  unfold ratEq
  constructor
  · intro hr
    by_contra hne
    rcases lt_or_gt_of_ne hne with h | h
    · have hb : Rat.blt a b = true := h
      rw [hb] at hr
      simp at hr
    · have hb : Rat.blt b a = true := h
      rw [hb] at hr
      simp at hr
  · intro h
    subst h
    have hb : Rat.blt a a = false := by
      cases hbb : Rat.blt a a
      · rfl
      · exact absurd (show a < a from hbb) (lt_irrefl a)
    rw [hb]
    rfl

lemma ratEq_false_iff (a b : ℚ) : ratEq a b = false ↔ a ≠ b := by
  constructor
  · intro hr he
    rw [(ratEq_iff a b).mpr he] at hr
    simp at hr
  · intro hne
    cases hr : ratEq a b
    · rfl
    · exact absurd ((ratEq_iff a b).mp hr) hne

lemma ratEq_of_ne {a b : ℚ} (h : a ≠ b) : ratEq a b = false :=
  (ratEq_false_iff a b).mpr h

lemma getD_set_self {α : Type} {l : List α} {i : ℕ} (a d : α) (h : i < l.length) :
    (l.set i a).getD i d = a := by
  simp [List.getD_eq_getElem?_getD, List.getElem?_set_self, h]

lemma getD_set_ne {α : Type} {i j : ℕ} (l : List α) (a d : α) (h : i ≠ j) :
    (l.set i a).getD j d = l.getD j d := by
  simp [List.getD_eq_getElem?_getD, List.getElem?_set_ne h]

lemma getElem?_eq_some_getD {l : List ℚ} {i : ℕ} (h : i < l.length) :
    l[i]? = some (l.getD i 0) := by
  rw [List.getElem?_eq_getElem h]
  simp [List.getD_eq_getElem?_getD, List.getElem?_eq_getElem h]

@[simp] lemma pruneApplyStopping_current_inputs (cfg : PruneConfig) (s : PruneState) (e : ℚ) :
    (pruneApplyStopping cfg s e).current_inputs = s.current_inputs := by
  unfold pruneApplyStopping; split_ifs <;> rfl

@[simp] lemma pruneApplyStopping_net_inputs (cfg : PruneConfig) (s : PruneState) (e : ℚ) :
    (pruneApplyStopping cfg s e).net_inputs = s.net_inputs := by
  unfold pruneApplyStopping; split_ifs <;> rfl

@[simp] lemma pruneApplyStopping_error_ratios (cfg : PruneConfig) (s : PruneState) (e : ℚ) :
    (pruneApplyStopping cfg s e).error_ratios = s.error_ratios := by
  unfold pruneApplyStopping; split_ifs <;> rfl

@[simp] lemma pruneApplyStopping_parameters (cfg : PruneConfig) (s : PruneState) (e : ℚ) :
    (pruneApplyStopping cfg s e).parameters = s.parameters := by
  unfold pruneApplyStopping; split_ifs <;> rfl

@[simp] lemma pruneApplyStopping_selection (cfg : PruneConfig) (s : PruneState) (e : ℚ) :
    (pruneApplyStopping cfg s e).current_selection_performance =
      s.current_selection_performance := by
  unfold pruneApplyStopping; split_ifs <;> rfl

@[simp] lemma pruneApplyStopping_final_selection (cfg : PruneConfig) (s : PruneState) (e : ℚ) :
    (pruneApplyStopping cfg s e).final_selection = s.final_selection := by
  unfold pruneApplyStopping; split_ifs <;> rfl

@[simp] lemma pruneApplyStopping_best_ratio_index (cfg : PruneConfig) (s : PruneState) (e : ℚ) :
    (pruneApplyStopping cfg s e).best_ratio_index = s.best_ratio_index := by
  unfold pruneApplyStopping; split_ifs <;> rfl

@[simp] lemma pruneApplyStopping_best_error (cfg : PruneConfig) (s : PruneState) (e : ℚ) :
    (pruneApplyStopping cfg s e).best_error = s.best_error := by
  unfold pruneApplyStopping; split_ifs <;> rfl

@[simp] lemma pruneApplyStopping_iterations (cfg : PruneConfig) (s : PruneState) (e : ℚ) :
    (pruneApplyStopping cfg s e).iterations = s.iterations := by
  unfold pruneApplyStopping; split_ifs <;> rfl

lemma pruneApplyStopping_ended_of_finished (cfg : PruneConfig) (s : PruneState) (e : ℚ)
    (h : countTrue s.current_inputs = 1 ∨ s.current_selection_performance ≤ s.best_error) :
    (pruneApplyStopping cfg s e).ended = true := by
  unfold pruneApplyStopping; split_ifs <;> simp_all

lemma pruneApplyStopping_of_ended_false (cfg : PruneConfig) (s : PruneState) (e : ℚ)
    (h : (pruneApplyStopping cfg s e).ended = false) :
    pruneApplyStopping cfg s e = s ∧ ¬(cfg.maximum_iterations_number ≤ s.iterations) := by
  unfold pruneApplyStopping at h ⊢; split_ifs at h ⊢ <;> simp_all

lemma pruneApplyStopping_max_iterations (cfg : PruneConfig) (s : PruneState) (e : ℚ)
    (ha : ¬(cfg.maximum_time ≤ e))
    (hb : ¬(s.final_selection < cfg.selection_performance_goal))
    (hc : cfg.maximum_iterations_number ≤ s.iterations) :
    (pruneApplyStopping cfg s e).ended = true ∧
      (pruneApplyStopping cfg s e).stopping_condition =
        some PruneStoppingCondition.MaximumIterations := by
  unfold pruneApplyStopping; split_ifs <;> simp_all

@[simp] lemma orderApplyStopping_optimal_order (cfg : OrderConfig) (s : OrderState) (e : ℚ) :
    (orderApplyStopping cfg s e).optimal_order = s.optimal_order := by
  unfold orderApplyStopping; split_ifs <;> rfl

@[simp] lemma orderApplyStopping_optimum_performance (cfg : OrderConfig) (s : OrderState)
    (e : ℚ) :
    (orderApplyStopping cfg s e).optimum_performance = s.optimum_performance := by
  unfold orderApplyStopping; split_ifs <;> rfl

@[simp] lemma orderApplyStopping_optimum_parameters (cfg : OrderConfig) (s : OrderState)
    (e : ℚ) :
    (orderApplyStopping cfg s e).optimum_parameters = s.optimum_parameters := by
  unfold orderApplyStopping; split_ifs <;> rfl

@[simp] lemma orderApplyStopping_temperature (cfg : OrderConfig) (s : OrderState) (e : ℚ) :
    (orderApplyStopping cfg s e).temperature = s.temperature := by
  unfold orderApplyStopping; split_ifs <;> rfl

@[simp] lemma orderApplyStopping_iterations (cfg : OrderConfig) (s : OrderState) (e : ℚ) :
    (orderApplyStopping cfg s e).iterations = s.iterations := by
  unfold orderApplyStopping; split_ifs <;> rfl

@[simp] lemma orderApplyStopping_failures (cfg : OrderConfig) (s : OrderState) (e : ℚ) :
    (orderApplyStopping cfg s e).generalization_failures = s.generalization_failures := by
  unfold orderApplyStopping; split_ifs <;> rfl

@[simp] lemma orderApplyStopping_rand_pos (cfg : OrderConfig) (s : OrderState) (e : ℚ) :
    (orderApplyStopping cfg s e).rand_pos = s.rand_pos := by
  unfold orderApplyStopping; split_ifs <;> rfl

lemma orderApplyStopping_min_temperature (cfg : OrderConfig) (s : OrderState) (e : ℚ)
    (h : s.temperature < cfg.minimum_temperature) :
    (orderApplyStopping cfg s e).ended = true ∧
      (orderApplyStopping cfg s e).stopping_condition =
        some OrderStoppingCondition.MinimumTemperature := by
  unfold orderApplyStopping; split_ifs <;> simp_all

lemma orderApplyStopping_max_failures (cfg : OrderConfig) (s : OrderState) (e : ℚ)
    (ha : ¬(s.temperature < cfg.minimum_temperature))
    (hb : ¬(cfg.maximum_time < e))
    (hc : ¬(s.optimum_performance.2 < cfg.generalization_performance_goal))
    (hd : cfg.maximum_generalization_failures ≤ s.generalization_failures) :
    (orderApplyStopping cfg s e).ended = true ∧
      (orderApplyStopping cfg s e).stopping_condition =
        some OrderStoppingCondition.MaximumGeneralizationFailures := by
  unfold orderApplyStopping; split_ifs <;> simp_all

lemma orderApplyStopping_max_iterations (cfg : OrderConfig) (s : OrderState) (e : ℚ)
    (ha : ¬(s.temperature < cfg.minimum_temperature))
    (hb : ¬(cfg.maximum_time < e))
    (hc : ¬(s.optimum_performance.2 < cfg.generalization_performance_goal))
    (hd : ¬(cfg.maximum_generalization_failures ≤ s.generalization_failures))
    (he : cfg.maximum_iterations_number ≤ s.iterations) :
    (orderApplyStopping cfg s e).ended = true ∧
      (orderApplyStopping cfg s e).stopping_condition =
        some OrderStoppingCondition.MaximumIterations := by
  unfold orderApplyStopping; split_ifs <;> simp_all

lemma orderApplyStopping_of_ended_false (cfg : OrderConfig) (s : OrderState) (e : ℚ)
    (h : (orderApplyStopping cfg s e).ended = false) :
    orderApplyStopping cfg s e = s ∧ ¬(cfg.maximum_iterations_number ≤ s.iterations) := by
  unfold orderApplyStopping at h ⊢; split_ifs at h ⊢ <;> simp_all

lemma orderReject_false_iff (O : OrderOracle) (cfg : OrderConfig) (s : OrderState)
    (current_order pos1 : ℕ) :
    orderReject O cfg s current_order pos1 = false ↔ saAccept O cfg s current_order pos1 := by
  simp [orderReject, saAccept, not_le, Bool.or_eq_false_iff]

lemma orderCommit_optimal_order (O : OrderOracle) (cfg : OrderConfig) (s : OrderState)
    (c p1 : ℕ) :
    (orderCommit O cfg s c p1).optimal_order =
      if orderReject O cfg s c p1 then s.optimal_order else c := by
  simp [orderCommit, orderUpdate]

lemma orderCommit_optimum_performance (O : OrderOracle) (cfg : OrderConfig) (s : OrderState)
    (c p1 : ℕ) :
    (orderCommit O cfg s c p1).optimum_performance =
      if orderReject O cfg s c p1 then s.optimum_performance else O.performances c := by
  simp [orderCommit, orderUpdate]

lemma orderCommit_optimum_parameters (O : OrderOracle) (cfg : OrderConfig) (s : OrderState)
    (c p1 : ℕ) :
    (orderCommit O cfg s c p1).optimum_parameters =
      if orderReject O cfg s c p1 then s.optimum_parameters else O.parameters_order c := by
  simp [orderCommit, orderUpdate]

lemma orderCommit_failures (O : OrderOracle) (cfg : OrderConfig) (s : OrderState)
    (c p1 : ℕ) :
    (orderCommit O cfg s c p1).generalization_failures =
      if orderReject O cfg s c p1 then s.generalization_failures + 1
      else s.generalization_failures := by
  simp [orderCommit, orderUpdate]

lemma orderCommit_temperature (O : OrderOracle) (cfg : OrderConfig) (s : OrderState)
    (c p1 : ℕ) :
    (orderCommit O cfg s c p1).temperature = cfg.cooling_rate * s.temperature := by
  simp [orderCommit, orderUpdate]

lemma orderCommit_iterations (O : OrderOracle) (cfg : OrderConfig) (s : OrderState)
    (c p1 : ℕ) :
    (orderCommit O cfg s c p1).iterations = s.iterations + 1 := by
  simp [orderCommit, orderUpdate]

lemma orderStep_parts {O : OrderOracle} {cfg : OrderConfig} {s s1 : OrderState}
    (h : orderStep O cfg s = some s1) :
    ∃ c p1, genCandidate cfg O.random_uniform s.optimal_order s.rand_pos = some (c, p1) ∧
      s1 = orderCommit O cfg s c p1 := by
  unfold orderStep at h
  cases hg : genCandidate cfg O.random_uniform s.optimal_order s.rand_pos with
  | none => rw [hg] at h; exact absurd h (by simp)
  | some cp =>
    rw [hg] at h
    obtain ⟨c, p1⟩ := cp
    refine ⟨c, p1, rfl, ?_⟩
    injection h with h1
    exact h1.symm

lemma genLoop_ne (cfg : OrderConfig) (rand : ℕ → ℚ) (opt L U : ℕ) :
    ∀ fuel pos failures current cand p1,
      genLoop cfg rand opt L U fuel pos failures current = some (cand, p1) → cand ≠ opt := by
  intro fuel
  induction fuel with
  | zero => intro pos failures current cand p1 h; exact absurd h (by simp [genLoop])
  | succ n ih =>
    intro pos failures current cand p1 h
    by_cases hc : current = opt
    · rw [genLoop, if_pos hc] at h
      exact ih _ _ _ _ _ h
    · rw [genLoop, if_neg hc] at h
      injection h with h1
      injection h1 with h2 h3
      exact h2 ▸ hc

lemma genCandidate_ne {cfg : OrderConfig} {rand : ℕ → ℚ} {opt pos cand p1 : ℕ}
    (h : genCandidate cfg rand opt pos = some (cand, p1)) : cand ≠ opt := by
  exact genLoop_ne cfg rand opt _ _ 8 (pos + 1) 0 _ cand p1 h

lemma orderRun_succ (O : OrderOracle) (cfg : OrderConfig) (k : ℕ) :
    orderRun O cfg (k + 1) =
      match orderRun O cfg k with
      | none => none
      | some s => if s.ended then some s else orderStep O cfg s := rfl

lemma orderRun_temperature (O : OrderOracle) (cfg : OrderConfig) :
    ∀ k s, orderRun O cfg k = some s →
      s.temperature = (orderInit O cfg).temperature * cfg.cooling_rate ^ s.iterations := by
  intro k
  induction k with
  | zero =>
    intro s h
    injection h with h1
    rw [← h1]
    simp [orderInit]
  | succ n ih =>
    intro s h
    rw [orderRun_succ] at h
    cases hn : orderRun O cfg n with
    | none => rw [hn] at h; exact absurd h (by simp)
    | some t =>
      rw [hn] at h
      dsimp only at h
      by_cases ht : t.ended
      · rw [if_pos ht] at h
        injection h with h1
        exact h1 ▸ ih t hn
      · rw [if_neg ht] at h
        obtain ⟨c, p1, hg, hcommit⟩ := orderStep_parts h
        have h2 := ih t hn
        rw [hcommit, orderCommit_temperature, orderCommit_iterations, h2, pow_succ]
        ring

lemma orderRun_iterations_le (O : OrderOracle) (cfg : OrderConfig)
    (hpos : 0 < cfg.maximum_iterations_number) :
    ∀ k s, orderRun O cfg k = some s →
      s.iterations ≤ cfg.maximum_iterations_number ∧
        (s.ended = false → s.iterations < cfg.maximum_iterations_number) := by
  intro k
  induction k with
  | zero =>
    intro s h
    injection h with h1
    rw [← h1]
    exact ⟨Nat.le_of_lt hpos, fun _ => hpos⟩
  | succ n ih =>
    intro s h
    rw [orderRun_succ] at h
    cases hn : orderRun O cfg n with
    | none => rw [hn] at h; exact absurd h (by simp)
    | some t =>
      rw [hn] at h
      dsimp only at h
      by_cases ht : t.ended
      · rw [if_pos ht] at h
        injection h with h1
        exact h1 ▸ ih t hn
      · rw [if_neg ht] at h
        obtain ⟨c, p1, hg, hcommit⟩ := orderStep_parts h
        have hlt : t.iterations < cfg.maximum_iterations_number := (ih t hn).2 (by
          cases hht : t.ended
          · rfl
          · exact absurd hht ht)
        have hit : s.iterations = t.iterations + 1 := by
          rw [hcommit, orderCommit_iterations]
        constructor
        · omega
        · intro hend
          rw [hcommit] at hend ⊢
          unfold orderCommit at hend ⊢
          have h3 := orderApplyStopping_of_ended_false cfg
            (orderUpdate O cfg t c p1) (O.elapsed_time t.iterations) hend
          have h4 : (orderUpdate O cfg t c p1).iterations = t.iterations + 1 := by
            simp [orderUpdate]
          rw [h3.1]
          omega

/-- C2: in every iteration of the simulated-annealing order search, the
candidate order is accepted (optimal order, best performances and best
parameters all updated to the candidate's) exactly when the fresh uniform draw
is strictly less than `min(1, exp(-(candidate error - optimum
error)/temperature))` and it is not the case that the candidate error is
within `tolerance` of the optimum while the candidate order is `>=` the
current optimal order; in every other case the candidate is rejected and the
optimum is left unchanged. -/
theorem C2_acceptance_rule (O : OrderOracle) (cfg : OrderConfig) (s s1 : OrderState)
    (c p1 : ℕ)
    (hg : genCandidate cfg O.random_uniform s.optimal_order s.rand_pos = some (c, p1))
    (hstep : orderStep O cfg s = some s1) :
    ((s1.optimal_order = c ∧ s1.optimum_performance = O.performances c ∧
        s1.optimum_parameters = O.parameters_order c) ↔ saAccept O cfg s c p1) ∧
      (¬saAccept O cfg s c p1 →
        s1.optimal_order = s.optimal_order ∧
          s1.optimum_performance = s.optimum_performance ∧
          s1.optimum_parameters = s.optimum_parameters) := by
  obtain ⟨c2, p2, hg2, hcommit⟩ := orderStep_parts hstep
  rw [hg] at hg2
  injection hg2 with hg3
  injection hg3 with hc hp
  subst hc
  subst hp
  have hne : c ≠ s.optimal_order := genCandidate_ne hg
  cases hr : orderReject O cfg s c p1 with
  | false =>
    have hacc : saAccept O cfg s c p1 := (orderReject_false_iff O cfg s c p1).mp hr
    have f1 : s1.optimal_order = c := by
      rw [hcommit, orderCommit_optimal_order, hr]
      simp
    have f2 : s1.optimum_performance = O.performances c := by
      rw [hcommit, orderCommit_optimum_performance, hr]
      simp
    have f3 : s1.optimum_parameters = O.parameters_order c := by
      rw [hcommit, orderCommit_optimum_parameters, hr]
      simp
    exact ⟨⟨fun _ => hacc, fun _ => ⟨f1, f2, f3⟩⟩, fun hn => absurd hacc hn⟩
  | true =>
    have hacc : ¬saAccept O cfg s c p1 := by
      intro ha
      have h4 := (orderReject_false_iff O cfg s c p1).mpr ha
      rw [hr] at h4
      simp at h4
    have e1 : s1.optimal_order = s.optimal_order := by
      rw [hcommit, orderCommit_optimal_order, hr]
      simp
    have e2 : s1.optimum_performance = s.optimum_performance := by
      rw [hcommit, orderCommit_optimum_performance, hr]
      simp
    have e3 : s1.optimum_parameters = s.optimum_parameters := by
      rw [hcommit, orderCommit_optimum_parameters, hr]
      simp
    refine ⟨⟨?_, fun ha => absurd ha hacc⟩, fun _ => ⟨e1, e2, e3⟩⟩
    intro hupd
    rw [e1] at hupd
    exact absurd hupd.1.symm hne

/-- C5: the temperature of the order search is initialized to the
generalization error of the first evaluated order T0 and is multiplied by
`cooling_rate` exactly once per iteration regardless of acceptance, so in any
reachable state it equals `T0 * cooling_rate ^ iterations`; with `T0 > 0` and
`cooling_rate` in `(0,1)` it strictly decreases across every executed
iteration, and an iteration that leaves the temperature below
`minimum_temperature` ends the run with reason `MinimumTemperature` (the
first predicate of the stopping chain). -/
theorem C5_temperature_schedule :
    (∀ (O : OrderOracle) (cfg : OrderConfig),
        (orderInit O cfg).temperature = (O.performances (orderInit O cfg).optimal_order).2) ∧
      (∀ (O : OrderOracle) (cfg : OrderConfig) (k : ℕ) (s : OrderState),
        orderRun O cfg k = some s →
          s.temperature = (orderInit O cfg).temperature * cfg.cooling_rate ^ s.iterations) ∧
      (∀ (O : OrderOracle) (cfg : OrderConfig) (k : ℕ) (s s1 : OrderState),
        0 < (orderInit O cfg).temperature → 0 < cfg.cooling_rate → cfg.cooling_rate < 1 →
          orderRun O cfg k = some s → s.ended = false → orderRun O cfg (k + 1) = some s1 →
          s1.temperature < s.temperature) ∧
      (∀ (O : OrderOracle) (cfg : OrderConfig) (s s1 : OrderState),
        orderStep O cfg s = some s1 → s1.temperature < cfg.minimum_temperature →
          s1.ended = true ∧
            s1.stopping_condition = some OrderStoppingCondition.MinimumTemperature) := by
  refine ⟨fun O cfg => rfl, fun O cfg => orderRun_temperature O cfg, ?_, ?_⟩
  · intro O cfg k s s1 hT0 hc0 hc1 hrun hend hrun1
    rw [orderRun_succ, hrun] at hrun1
    dsimp only at hrun1
    rw [hend] at hrun1
    simp only [Bool.false_eq_true, if_false] at hrun1
    obtain ⟨c, p1, hg, hcommit⟩ := orderStep_parts hrun1
    have htemp : s.temperature =
        (orderInit O cfg).temperature * cfg.cooling_rate ^ s.iterations :=
      orderRun_temperature O cfg k s hrun
    have hpos : 0 < s.temperature := by
      rw [htemp]
      exact mul_pos hT0 (pow_pos hc0 s.iterations)
    rw [hcommit, orderCommit_temperature]
    exact mul_lt_of_lt_one_left hpos hc1
  · intro O cfg s s1 hstep hlt
    obtain ⟨c, p1, hg, hcommit⟩ := orderStep_parts hstep
    have hbase : (orderUpdate O cfg s c p1).temperature < cfg.minimum_temperature := by
      have h1 : s1.temperature = (orderUpdate O cfg s c p1).temperature := by
        rw [hcommit]
        unfold orderCommit
        rw [orderApplyStopping_temperature]
      rw [← h1]
      exact hlt
    have h2 := orderApplyStopping_min_temperature cfg (orderUpdate O cfg s c p1)
      (O.elapsed_time s.iterations) hbase
    rw [hcommit]
    unfold orderCommit
    exact h2

/-- C6: the generalization-failure counter of the order search is incremented
by one on every rejected candidate and is never reset on an acceptance (it is
a cumulative total), and an iteration that brings this total to
`maximum_generalization_failures` ends the run with reason
`MaximumGeneralizationFailures` provided none of the three higher-priority
predicates (minimum temperature, maximum time, generalization goal) fires in
that iteration. -/
theorem C6_failure_counter :
    (∀ (O : OrderOracle) (cfg : OrderConfig) (s s1 : OrderState) (c p1 : ℕ),
        genCandidate cfg O.random_uniform s.optimal_order s.rand_pos = some (c, p1) →
          orderStep O cfg s = some s1 →
          (saAccept O cfg s c p1 →
              s1.generalization_failures = s.generalization_failures) ∧
            (¬saAccept O cfg s c p1 →
              s1.generalization_failures = s.generalization_failures + 1)) ∧
      (∀ (O : OrderOracle) (cfg : OrderConfig) (s s1 : OrderState),
        orderStep O cfg s = some s1 →
          ¬(s1.temperature < cfg.minimum_temperature) →
          ¬(cfg.maximum_time < O.elapsed_time s.iterations) →
          ¬(s1.optimum_performance.2 < cfg.generalization_performance_goal) →
          cfg.maximum_generalization_failures ≤ s1.generalization_failures →
          s1.ended = true ∧
            s1.stopping_condition =
              some OrderStoppingCondition.MaximumGeneralizationFailures) := by
  constructor
  · intro O cfg s s1 c p1 hg hstep
    obtain ⟨c2, p2, hg2, hcommit⟩ := orderStep_parts hstep
    rw [hg] at hg2
    injection hg2 with hg3
    injection hg3 with hc hp
    subst hc
    subst hp
    rw [hcommit, orderCommit_failures]
    constructor
    · intro hacc
      rw [(orderReject_false_iff O cfg s c p1).mpr hacc]
      simp
    · intro hrej
      cases hr : orderReject O cfg s c p1 with
      | false => exact absurd ((orderReject_false_iff O cfg s c p1).mp hr) hrej
      | true => simp
  · intro O cfg s s1 hstep ha hb hc hd
    obtain ⟨c, p1, hg, hcommit⟩ := orderStep_parts hstep
    have e1 : s1.temperature = (orderUpdate O cfg s c p1).temperature := by
      rw [hcommit]; unfold orderCommit; rw [orderApplyStopping_temperature]
    have e2 : s1.optimum_performance = (orderUpdate O cfg s c p1).optimum_performance := by
      rw [hcommit]; unfold orderCommit; rw [orderApplyStopping_optimum_performance]
    have e3 : s1.generalization_failures =
        (orderUpdate O cfg s c p1).generalization_failures := by
      rw [hcommit]; unfold orderCommit; rw [orderApplyStopping_failures]
    have h2 := orderApplyStopping_max_failures cfg (orderUpdate O cfg s c p1)
      (O.elapsed_time s.iterations) (e1 ▸ ha) hb (e2 ▸ hc) (e3 ▸ hd)
    rw [hcommit]
    unfold orderCommit
    exact h2

/-- C8: the configuration setters validate their bounds synchronously (the
checks compiled under `__OPENNN_DEBUG__`): `set_cooling_rate` with the value 1
fails with a `ConfigurationError` because the cooling rate must be strictly
below 1, `set_minimum_inputs_number` with the value 0 fails with a
`ConfigurationError` because the minimum inputs number must be strictly
positive, and in both failing cases the stored configuration is returned
unchanged. -/
theorem C8_setter_validation :
    (∀ (s : OrderConfig),
        set_cooling_rate s 1 =
          (s, some ConfigurationError.cooling_rate_not_less_than_one)) ∧
      (∀ (p : PruneConfig),
        set_minimum_inputs_number p 0 =
          (p, some ConfigurationError.minimum_inputs_number_not_positive)) := by
  constructor
  · intro s
    unfold set_cooling_rate
    norm_num
  · intro p
    unfold set_minimum_inputs_number
    norm_num

lemma drawOrder_le {L U : ℕ} (u : ℚ) (hLU : L ≤ U) (hu0 : 0 ≤ u) (hu1 : u ≤ 1) :
    drawOrder L U u ≤ U := by
  unfold drawOrder natFloor
  have hcast : ((U - L : ℕ) : ℚ) = (U : ℚ) - (L : ℚ) := by
    rw [Nat.cast_sub hLU]
  have h1 : (L : ℚ) + u * ((U - L : ℕ) : ℚ) ≤ (U : ℚ) := by
    rw [hcast]
    have hnn : (0 : ℚ) ≤ (U : ℚ) - L := sub_nonneg.mpr (by exact_mod_cast hLU)
    nlinarith
  have h3 : Int.floor ((L : ℚ) + u * ((U - L : ℕ) : ℚ)) ≤ (U : ℤ) := by
    have h4 := Int.floor_le_floor h1
    rwa [Int.floor_natCast] at h4
  exact Int.toNat_le.mpr h3

lemma windowLower_le (cfg : OrderConfig) (opt : ℕ) (hmin : cfg.minimum_order ≤ opt) :
    windowLower cfg opt ≤ opt := by
  unfold windowLower
  split_ifs with h
  · exact hmin
  · exact Nat.sub_le opt _

lemma le_windowUpper (cfg : OrderConfig) (opt : ℕ) (hmax : opt ≤ cfg.maximum_order) :
    opt ≤ windowUpper cfg opt :=
  le_min hmax (Nat.le_add_right opt _)

lemma genLoop_le_max (cfg : OrderConfig) (rand : ℕ → ℚ) (opt L U : ℕ)
    (hmax : opt ≤ cfg.maximum_order) (hU : U ≤ cfg.maximum_order) (hLU : L ≤ U)
    (hrand : ∀ p, 0 ≤ rand p ∧ rand p ≤ 1) :
    ∀ fuel pos failures current, current ≤ cfg.maximum_order →
      ∀ cand p1, genLoop cfg rand opt L U fuel pos failures current = some (cand, p1) →
        cand ≤ cfg.maximum_order := by
  intro fuel
  induction fuel with
  | zero =>
    intro pos failures current hcur cand p1 h
    exact absurd h (by simp [genLoop])
  | succ n ih =>
    intro pos failures current hcur cand p1 h
    by_cases hc : current = opt
    · rw [genLoop, if_pos hc] at h
      refine ih (pos + 1) (failures + 1) _ ?_ cand p1 h
      split_ifs with hA hB
      · exact le_trans (Nat.sub_le opt 1) hmax
      · have h5 : opt < cfg.maximum_order := lt_of_le_of_ne hmax hB.2
        omega
      · exact le_trans (drawOrder_le (rand pos) hLU (hrand pos).1 (hrand pos).2) hU
    · rw [genLoop, if_neg hc] at h
      injection h with h1
      injection h1 with h2 h3
      omega

lemma genLoop_forced_down (cfg : OrderConfig) (rand : ℕ → ℚ) (opt L U pos : ℕ)
    (hne : opt ≠ cfg.minimum_order) (hpos : 1 ≤ opt)
    (h1 : drawOrder L U (rand (pos + 1)) = opt)
    (h2 : drawOrder L U (rand (pos + 2)) = opt)
    (h3 : drawOrder L U (rand (pos + 3)) = opt)
    (h4 : drawOrder L U (rand (pos + 4)) = opt) :
    genLoop cfg rand opt L U 8 (pos + 1) 0 opt = some (opt - 1, pos + 6) := by
  have hne1 : ¬(opt - 1 = opt) := by omega
  have s8 : genLoop cfg rand opt L U 8 (pos + 1) 0 opt =
      genLoop cfg rand opt L U 7 (pos + 2) 1 opt := by
    rw [show (8 : ℕ) = 7 + 1 from rfl, genLoop, if_pos rfl]
    norm_num [h1]
  have s7 : genLoop cfg rand opt L U 7 (pos + 2) 1 opt =
      genLoop cfg rand opt L U 6 (pos + 3) 2 opt := by
    rw [show (7 : ℕ) = 6 + 1 from rfl, genLoop, if_pos rfl]
    norm_num [h2]
  have s6 : genLoop cfg rand opt L U 6 (pos + 3) 2 opt =
      genLoop cfg rand opt L U 5 (pos + 4) 3 opt := by
    rw [show (6 : ℕ) = 5 + 1 from rfl, genLoop, if_pos rfl]
    norm_num [h3]
  have s5 : genLoop cfg rand opt L U 5 (pos + 4) 3 opt =
      genLoop cfg rand opt L U 4 (pos + 5) 4 opt := by
    rw [show (5 : ℕ) = 4 + 1 from rfl, genLoop, if_pos rfl]
    norm_num [h4]
  have s4 : genLoop cfg rand opt L U 4 (pos + 5) 4 opt =
      genLoop cfg rand opt L U 3 (pos + 6) 5 (opt - 1) := by
    rw [show (4 : ℕ) = 3 + 1 from rfl, genLoop, if_pos rfl]
    norm_num [hne]
  have s3 : genLoop cfg rand opt L U 3 (pos + 6) 5 (opt - 1) = some (opt - 1, pos + 6) := by
    rw [show (3 : ℕ) = 2 + 1 from rfl, genLoop, if_neg hne1]
  rw [s8, s7, s6, s5, s4, s3]

lemma genLoop_forced_up (cfg : OrderConfig) (rand : ℕ → ℚ) (opt L U pos : ℕ)
    (heq : opt = cfg.minimum_order) (hne2 : opt ≠ cfg.maximum_order)
    (h1 : drawOrder L U (rand (pos + 1)) = opt)
    (h2 : drawOrder L U (rand (pos + 2)) = opt)
    (h3 : drawOrder L U (rand (pos + 3)) = opt)
    (h4 : drawOrder L U (rand (pos + 4)) = opt) :
    genLoop cfg rand opt L U 8 (pos + 1) 0 opt = some (opt + 1, pos + 6) := by
  have hne1 : ¬(opt + 1 = opt) := by omega
  have s8 : genLoop cfg rand opt L U 8 (pos + 1) 0 opt =
      genLoop cfg rand opt L U 7 (pos + 2) 1 opt := by
    rw [show (8 : ℕ) = 7 + 1 from rfl, genLoop, if_pos rfl]
    norm_num [h1]
  have s7 : genLoop cfg rand opt L U 7 (pos + 2) 1 opt =
      genLoop cfg rand opt L U 6 (pos + 3) 2 opt := by
    rw [show (7 : ℕ) = 6 + 1 from rfl, genLoop, if_pos rfl]
    norm_num [h2]
  have s6 : genLoop cfg rand opt L U 6 (pos + 3) 2 opt =
      genLoop cfg rand opt L U 5 (pos + 4) 3 opt := by
    rw [show (6 : ℕ) = 5 + 1 from rfl, genLoop, if_pos rfl]
    norm_num [h3]
  have s5 : genLoop cfg rand opt L U 5 (pos + 4) 3 opt =
      genLoop cfg rand opt L U 4 (pos + 5) 4 opt := by
    rw [show (5 : ℕ) = 4 + 1 from rfl, genLoop, if_pos rfl]
    norm_num [h4]
  have hne3 : ¬(cfg.minimum_order = cfg.maximum_order) := by
    rw [← heq]; exact hne2
  have s4 : genLoop cfg rand opt L U 4 (pos + 5) 4 opt =
      genLoop cfg rand opt L U 3 (pos + 6) 5 (opt + 1) := by
    rw [show (4 : ℕ) = 3 + 1 from rfl, genLoop, if_pos rfl]
    norm_num [heq, hne3]
  have s3 : genLoop cfg rand opt L U 3 (pos + 6) 5 (opt + 1) = some (opt + 1, pos + 6) := by
    rw [show (3 : ℕ) = 2 + 1 from rfl, genLoop, if_neg hne1]
  rw [s8, s7, s6, s5, s4, s3]

lemma pruneRun_succ (O : PruneOracle) (cfg : PruneConfig) (k : ℕ) :
    pruneRun O cfg (k + 1) =
      match pruneRun O cfg k with
      | none => none
      | some s => if s.ended then some s else pruneStep O cfg s := rfl

lemma pruneStep_of_pass {O : PruneOracle} {cfg : PruneConfig} {s : PruneState}
    {r params1 : List ℚ} (h : innerPassOf O s = some (r, params1)) :
    pruneStep O cfg s = some (pruneCommit O cfg s r params1) := by
  unfold pruneStep
  rw [h]

lemma pruneStep_of_pass_none {O : PruneOracle} {cfg : PruneConfig} {s : PruneState}
    (h : innerPassOf O s = none) : pruneStep O cfg s = none := by
  unfold pruneStep
  rw [h]

/-- The state of the two-input instance after its first (and only) outer
iteration: input 0 was removed (its removal error 1 beat the current selection
error 10), the current selection error is now 1 — strictly below the goal 5 —
but the run stops with `MinimumInputs`, because the goal predicate at line 370
tests the frozen `final[1] = 10` instead of the current selection error. -/
def stateTwo1 : PruneState :=
  { current_inputs := [false, true], net_inputs := [false, true],
    error_ratios := [sentinel, 3], parameters := [],
    current_training_performance := 2, current_selection_performance := 1,
    final_selection := 10, best_ratio_index := 0, best_error := 1,
    iterations := 1, ended := true,
    stopping_condition := some PruneStoppingCondition.MinimumInputs }

set_option maxRecDepth 8000 in
lemma innerPass_two :
    innerPassOf oracleTwo (pruneInit oracleTwo cfgTwo) = some ([1, 3], []) := by
  with_unfolding_all rfl

set_option maxRecDepth 8000 in
lemma commit_two :
    pruneCommit oracleTwo cfgTwo (pruneInit oracleTwo cfgTwo) [1, 3] [] = stateTwo1 := by
  with_unfolding_all rfl

lemma run_two_one : pruneRun oracleTwo cfgTwo 1 = some stateTwo1 := by
  rw [pruneRun_succ]
  show (if (pruneInit oracleTwo cfgTwo).ended then some (pruneInit oracleTwo cfgTwo)
    else pruneStep oracleTwo cfgTwo (pruneInit oracleTwo cfgTwo)) = some stateTwo1
  rw [if_neg (by with_unfolding_all decide), pruneStep_of_pass innerPass_two, commit_two]

/-- The state of the three-input instance after its first outer iteration.
During the evaluation pass the oracle returned exactly the sentinel value
`1e20` for the removal of input 0, so `error_ratios[0]` silently became a
sentinel.  The table's minimum 3 sat at position 1 and beat the current
selection error 5, so `current_inputs[1]` was cleared — but the commit step of
lines 320-328 discounted the phantom sentinel and pruned live input 0
instead, so the network lost input 0 (`net_inputs = [false, true, true]`) and
the re-evaluated selection error is `selection_error([false,true,true]) =
1e20`, far above both 3 and 5.  No stopping predicate fires and the run
continues with two adjacent sentinels in the table. -/
def stateThree1 : PruneState :=
  { current_inputs := [true, false, true], net_inputs := [false, true, true],
    error_ratios := [sentinel, sentinel, 4], parameters := [],
    current_training_performance := 2, current_selection_performance := sentinel,
    final_selection := 5, best_ratio_index := 1, best_error := 3,
    iterations := 1, ended := false, stopping_condition := none }

set_option maxRecDepth 8000 in
lemma innerPass_three :
    innerPassOf oracleThree (pruneInit oracleThree cfgThree) =
      some ([sentinel, 3, 4], []) := by
  with_unfolding_all rfl

set_option maxRecDepth 8000 in
lemma commit_three :
    pruneCommit oracleThree cfgThree (pruneInit oracleThree cfgThree)
      [sentinel, 3, 4] [] = stateThree1 := by
  with_unfolding_all rfl

lemma run_three_one : pruneRun oracleThree cfgThree 1 = some stateThree1 := by
  rw [pruneRun_succ]
  show (if (pruneInit oracleThree cfgThree).ended then some (pruneInit oracleThree cfgThree)
    else pruneStep oracleThree cfgThree (pruneInit oracleThree cfgThree)) = some stateThree1
  rw [if_neg (by with_unfolding_all decide), pruneStep_of_pass innerPass_three, commit_three]

set_option maxRecDepth 8000 in
lemma innerPass_three_second : innerPassOf oracleThree stateThree1 = none := by
  with_unfolding_all rfl

lemma run_three_two : pruneRun oracleThree cfgThree 2 = none := by
  rw [pruneRun_succ, run_three_one]
  show (if stateThree1.ended then some stateThree1
    else pruneStep oracleThree cfgThree stateThree1) = none
  rw [if_neg (by decide), pruneStep_of_pass_none innerPass_three_second]

lemma minimalIndexAux_lt (xs : List ℚ) :
    ∀ i bi bv, minimalIndexAux xs i bi bv = bi ∨ minimalIndexAux xs i bi bv < i + xs.length := by
  induction xs with
  | nil => intro i bi bv; exact Or.inl rfl
  | cons x rest ih =>
    intro i bi bv
    rw [minimalIndexAux]
    split_ifs
    · rcases ih (i + 1) i x with h | h
      · right
        rw [h, List.length_cons]
        omega
      · right
        rw [List.length_cons]
        omega
    · rcases ih (i + 1) bi bv with h | h
      · left
        exact h
      · right
        rw [List.length_cons]
        omega

lemma calculate_minimal_index_lt {l : List ℚ} (h : l ≠ []) :
    calculate_minimal_index l < l.length := by
  cases l with
  | nil => exact absurd rfl h
  | cons x xs =>
    rw [calculate_minimal_index]
    rcases minimalIndexAux_lt xs 1 0 x with h1 | h1
    · rw [h1]; simp
    · rw [List.length_cons]; omega

lemma zero_ne_sentinel : (0 : ℚ) ≠ sentinel := by
  norm_num [sentinel]

lemma skipSentinels_replicate {n : ℕ} (hn : 1 ≤ n) :
    skipSentinels (List.replicate n 0) = some 0 := by
  cases n with
  | zero => omega
  | succ m =>
    rw [List.replicate_succ]
    unfold skipSentinels
    rw [List.findIdx?_cons]
    rw [ratEq_of_ne zero_ne_sentinel]
    rfl

lemma sentinelsBefore_zero {r : List ℚ} (p : ℕ)
    (h : ∀ x, x ∈ r → x ≠ sentinel) : sentinelsBefore r p = 0 := by
  unfold sentinelsBefore
  rw [List.length_eq_zero]
  rw [List.filter_eq_nil]
  intro a ha
  have hmem : a ∈ r := List.mem_of_mem_take ha
  rw [ratEq_of_ne (h a hmem)]
  simp

lemma innerLoop_clean (O : PruneOracle) (netMask : List Bool) (snap : List ℚ) :
    ∀ rem i ratios, i + rem ≤ List.length ratios →
      (∀ j, i ≤ j → j < i + rem → ratios.getD j 0 ≠ sentinel) →
      ∃ r, innerLoop O netMask snap rem i 0 ratios snap = some (r, snap) ∧
        List.length r = List.length ratios ∧
        (∀ p, p < i → r.getD p 0 = ratios.getD p 0) ∧
        (∀ p, i ≤ p → p < i + rem → r.getD p 0 = O.selection_error (pruneLive netMask p)) ∧
        (∀ p, i + rem ≤ p → r.getD p 0 = ratios.getD p 0) := by
  intro rem
  induction rem with
  | zero =>
    intro i ratios hlen hclean
    exact ⟨ratios, rfl, rfl, fun p _ => rfl, fun p h1 h2 => absurd h2 (by omega),
      fun p _ => rfl⟩
  | succ n ih =>
    intro i ratios hlen hclean
    have hi : i < List.length ratios := by omega
    have hv : ratios[i + 0]? = some (ratios.getD i 0) := by
      rw [Nat.add_zero]
      exact getElem?_eq_some_getD hi
    have hvne : ratios.getD i 0 ≠ sentinel := hclean i le_rfl (by omega)
    obtain ⟨r, hr, hrlen, hpre, hmid, hpost⟩ :=
      ih (i + 1) (ratios.set i (O.selection_error (pruneLive netMask i)))
        (by rw [List.length_set]; omega)
        (by
          intro j hj1 hj2
          rw [getD_set_ne _ _ _ (by omega)]
          exact hclean j (by omega) (by omega))
    refine ⟨r, ?_, ?_, ?_, ?_, ?_⟩
    · rw [innerLoop, hv]
      dsimp only
      rw [ratEq_of_ne hvne]
      simp only [Bool.false_eq_true, if_false]
      rw [if_pos (by omega : i + 0 < List.length ratios)]
      exact hr
    · rw [hrlen, List.length_set]
    · intro p hp
      rw [hpre p (by omega), getD_set_ne _ _ _ (by omega)]
    · intro p h1 h2
      by_cases hpi : p = i
      · subst hpi
        rw [hpre p (by omega), getD_set_self _ _ hi]
      · exact hmid p (by omega) (by omega)
    · intro p hp
      rw [hpost p (by omega), getD_set_ne _ _ _ (by omega)]

lemma getD_replicate {n j : ℕ} : (List.replicate n (0 : ℚ)).getD j 0 = 0 := by
  rw [List.getD_eq_getElem?_getD, List.getElem?_replicate]
  split_ifs <;> rfl

lemma countTrue_replicate (n : ℕ) : countTrue (List.replicate n true) = n := by
  simp [countTrue]

lemma pruneLive_replicate (n j : ℕ) :
    pruneLive (List.replicate n true) j = (List.replicate n true).set j false := by
  induction n generalizing j with
  | zero => rfl
  | succ m ih =>
    rw [List.replicate_succ]
    cases j with
    | zero => rfl
    | succ j2 =>
      rw [show pruneLive (true :: List.replicate m true) (j2 + 1) =
        true :: pruneLive (List.replicate m true) j2 from rfl]
      rw [ih j2]
      rfl

lemma pruneStep_parts {O : PruneOracle} {cfg : PruneConfig} {s s1 : PruneState}
    (h : pruneStep O cfg s = some s1) :
    ∃ r pr, innerPassOf O s = some (r, pr) ∧ s1 = pruneCommit O cfg s r pr := by
  unfold pruneStep at h
  cases hg : innerPassOf O s with
  | none => rw [hg] at h; exact absurd h (by simp)
  | some rp =>
    rw [hg] at h
    obtain ⟨r, pr⟩ := rp
    refine ⟨r, pr, rfl, ?_⟩
    injection h with h1
    exact h1.symm

lemma innerPass_init (O : PruneOracle) (cfg : PruneConfig) (hn : 1 ≤ cfg.inputs_number) :
    ∃ r, innerPassOf O (pruneInit O cfg) = some (r, O.initial_parameters) ∧
      List.length r = cfg.inputs_number ∧
      (∀ p, p < cfg.inputs_number → r.getD p 0 =
        O.selection_error ((List.replicate cfg.inputs_number true).set p false)) := by
  obtain ⟨r, hr, hrlen, _, hmid, _⟩ :=
    innerLoop_clean O (List.replicate cfg.inputs_number true) O.initial_parameters
      cfg.inputs_number 0 (List.replicate cfg.inputs_number 0)
      (by simp)
      (fun j _ _ => by rw [getD_replicate]; exact zero_ne_sentinel)
  refine ⟨r, ?_, by simpa using hrlen, fun p hp => ?_⟩
  · unfold innerPassOf
    have e1 : (pruneInit O cfg).error_ratios = List.replicate cfg.inputs_number 0 := rfl
    have e4 : countTrue (pruneInit O cfg).current_inputs = cfg.inputs_number := by
      rw [show (pruneInit O cfg).current_inputs =
        List.replicate cfg.inputs_number true from rfl]
      exact countTrue_replicate _
    rw [e1, skipSentinels_replicate hn]
    dsimp only
    rw [e4]
    exact hr
  · rw [hmid p (by omega) (by omega), pruneLive_replicate]

lemma pruneStep_init_zero (O : PruneOracle) (cfg : PruneConfig)
    (h0 : cfg.inputs_number = 0) : pruneStep O cfg (pruneInit O cfg) = none := by
  apply pruneStep_of_pass_none
  unfold innerPassOf
  have e1 : (pruneInit O cfg).error_ratios = List.replicate cfg.inputs_number 0 := rfl
  rw [e1, h0]
  rw [show List.replicate 0 (0 : ℚ) = [] from rfl]
  rw [show skipSentinels [] = none by rfl]

lemma pruneStep_init_spec (O : PruneOracle) (cfg : PruneConfig)
    (hnc : ∀ m, O.selection_error m ≠ sentinel) (hn : 1 ≤ cfg.inputs_number) :
    ∃ s1, pruneStep O cfg (pruneInit O cfg) = some s1 ∧ s1.ended = true ∧
      s1.current_selection_performance ≤
        (pruneInit O cfg).current_selection_performance := by
  obtain ⟨r, hpass, hrlen, hrval⟩ := innerPass_init O cfg hn
  have hrne : r ≠ [] := by
    intro h
    rw [h] at hrlen
    simp at hrlen
    omega
  have hbest : calculate_minimal_index r < List.length r := calculate_minimal_index_lt hrne
  have hbn : calculate_minimal_index r < cfg.inputs_number := by
    rw [hrlen] at hbest
    exact hbest
  have hmem : ∀ x, x ∈ r → x ≠ sentinel := by
    intro x hx
    obtain ⟨j, hj, hjx⟩ := List.mem_iff_getElem.mp hx
    have hxd : r.getD j 0 = x := by
      rw [List.getD_eq_getElem?_getD, List.getElem?_eq_getElem hj, hjx]
      rfl
    rw [← hxd, hrval j (by omega)]
    exact hnc _
  have hsb : sentinelsBefore r (calculate_minimal_index r) = 0 :=
    sentinelsBefore_zero _ hmem
  have hbe : r.getD (calculate_minimal_index r) 0 =
      O.selection_error ((List.replicate cfg.inputs_number true).set
        (calculate_minimal_index r) false) := hrval _ hbn
  refine ⟨pruneCommit O cfg (pruneInit O cfg) r O.initial_parameters,
    pruneStep_of_pass hpass, ?_, ?_⟩
  all_goals
    unfold pruneCommit
  · -- the last stopping predicate necessarily fires, so the step ends the run
    apply pruneApplyStopping_ended_of_finished
    right
    by_cases hacc : r.getD (calculate_minimal_index r) 0 <
        (pruneInit O cfg).current_selection_performance
    · have ha : decide (r.getD (calculate_minimal_index r) 0 <
          (pruneInit O cfg).current_selection_performance) = true := decide_eq_true hacc
      simp only [pruneUpdate, ha, if_true, hsb, Nat.sub_zero]
      rw [show (pruneInit O cfg).net_inputs =
        List.replicate cfg.inputs_number true from rfl]
      rw [pruneLive_replicate, ← hbe]
    · have ha : decide (r.getD (calculate_minimal_index r) 0 <
          (pruneInit O cfg).current_selection_performance) = false :=
        decide_eq_false hacc
      simp only [pruneUpdate, ha, Bool.false_eq_true, if_false]
      rw [show O.selection_error (pruneInit O cfg).net_inputs =
        (pruneInit O cfg).current_selection_performance from rfl]
      exact not_lt.mp hacc
  · rw [pruneApplyStopping_selection]
    by_cases hacc : r.getD (calculate_minimal_index r) 0 <
        (pruneInit O cfg).current_selection_performance
    · have ha : decide (r.getD (calculate_minimal_index r) 0 <
          (pruneInit O cfg).current_selection_performance) = true := decide_eq_true hacc
      simp only [pruneUpdate, ha, if_true, hsb, Nat.sub_zero]
      rw [show (pruneInit O cfg).net_inputs =
        List.replicate cfg.inputs_number true from rfl]
      rw [pruneLive_replicate, ← hbe]
      exact le_of_lt hacc
    · have ha : decide (r.getD (calculate_minimal_index r) 0 <
          (pruneInit O cfg).current_selection_performance) = false :=
        decide_eq_false hacc
      simp only [pruneUpdate, ha, Bool.false_eq_true, if_false]
      rw [show O.selection_error (pruneInit O cfg).net_inputs =
        (pruneInit O cfg).current_selection_performance from rfl]

lemma prune_reachable (O : PruneOracle) (cfg : PruneConfig)
    (hnc : ∀ m, O.selection_error m ≠ sentinel) :
    ∀ k s, pruneRun O cfg k = some s → s.ended = false → s = pruneInit O cfg := by
  intro k
  induction k with
  | zero =>
    intro s h _
    injection h with h1
    exact h1.symm
  | succ n ih =>
    intro s h hend
    rw [pruneRun_succ] at h
    cases hn2 : pruneRun O cfg n with
    | none => rw [hn2] at h; exact absurd h (by simp)
    | some t =>
      rw [hn2] at h
      dsimp only at h
      by_cases ht : t.ended
      · rw [if_pos ht] at h
        injection h with h1
        rw [← h1, ht] at hend
        exact absurd hend (by simp)
      · rw [if_neg ht] at h
        have htf : t.ended = false := by
          revert ht
          cases t.ended <;> simp
        rw [ih t hn2 htf] at h
        by_cases hn1 : 1 ≤ cfg.inputs_number
        · obtain ⟨s1, hs1, hs1end, _⟩ := pruneStep_init_spec O cfg hnc hn1
          rw [hs1] at h
          injection h with h1
          rw [← h1, hs1end] at hend
          exact absurd hend (by simp)
        · rw [pruneStep_init_zero O cfg (by omega)] at h
          exact absurd h (by simp)

lemma prune_progress (O : PruneOracle) (cfg : PruneConfig)
    (hnc : ∀ m, O.selection_error m ≠ sentinel) (hn : 1 ≤ cfg.inputs_number) :
    ∀ k, (pruneRun O cfg k).isSome = true := by
  intro k
  induction k with
  | zero => rfl
  | succ n ih =>
    rw [pruneRun_succ]
    cases hn2 : pruneRun O cfg n with
    | none => rw [hn2] at ih; exact absurd ih (by simp)
    | some t =>
      dsimp only
      by_cases ht : t.ended
      · rw [if_pos ht]; rfl
      · rw [if_neg ht]
        have htf : t.ended = false := by
          revert ht
          cases t.ended <;> simp
        rw [prune_reachable O cfg hnc n t hn2 htf]
        obtain ⟨s1, hs1, _, _⟩ := pruneStep_init_spec O cfg hnc hn
        rw [hs1]
        rfl

lemma prune_sel_monotone (O : PruneOracle) (cfg : PruneConfig)
    (hnc : ∀ m, O.selection_error m ≠ sentinel) :
    ∀ k s s1, pruneRun O cfg k = some s → pruneRun O cfg (k + 1) = some s1 →
      s1.current_selection_performance ≤ s.current_selection_performance := by
  intro k s s1 h h1
  rw [pruneRun_succ, h] at h1
  dsimp only at h1
  by_cases ht : s.ended
  · rw [if_pos ht] at h1
    injection h1 with h2
    rw [← h2]
  · rw [if_neg ht] at h1
    have htf : s.ended = false := by
      revert ht
      cases s.ended <;> simp
    have hs := prune_reachable O cfg hnc k s h htf
    rw [hs] at h1 ⊢
    by_cases hn1 : 1 ≤ cfg.inputs_number
    · obtain ⟨t1, ht1, _, ht1sel⟩ := pruneStep_init_spec O cfg hnc hn1
      rw [ht1] at h1
      injection h1 with h2
      rw [← h2]
      exact ht1sel
    · rw [pruneStep_init_zero O cfg (by omega)] at h1
      exact absurd h1 (by simp)

lemma pruneCommit_best_ratio_index (O : PruneOracle) (cfg : PruneConfig) (s : PruneState)
    (r pr : List ℚ) :
    (pruneCommit O cfg s r pr).best_ratio_index = calculate_minimal_index r := by
  unfold pruneCommit
  rw [pruneApplyStopping_best_ratio_index]
  simp [pruneUpdate]

lemma pruneCommit_best_error (O : PruneOracle) (cfg : PruneConfig) (s : PruneState)
    (r pr : List ℚ) :
    (pruneCommit O cfg s r pr).best_error = r.getD (calculate_minimal_index r) 0 := by
  unfold pruneCommit
  rw [pruneApplyStopping_best_error]
  simp [pruneUpdate]

lemma pruneCommit_current_inputs (O : PruneOracle) (cfg : PruneConfig) (s : PruneState)
    (r pr : List ℚ) :
    (pruneCommit O cfg s r pr).current_inputs =
      if r.getD (calculate_minimal_index r) 0 < s.current_selection_performance then
        s.current_inputs.set (calculate_minimal_index r) false
      else s.current_inputs := by
  unfold pruneCommit
  rw [pruneApplyStopping_current_inputs]
  simp [pruneUpdate]

lemma pruneCommit_iterations (O : PruneOracle) (cfg : PruneConfig) (s : PruneState)
    (r pr : List ℚ) :
    (pruneCommit O cfg s r pr).iterations = s.iterations + 1 := by
  unfold pruneCommit
  rw [pruneApplyStopping_iterations]
  simp [pruneUpdate]

lemma pruneRun_iterations_le (O : PruneOracle) (cfg : PruneConfig)
    (hpos : 0 < cfg.maximum_iterations_number) :
    ∀ k s, pruneRun O cfg k = some s →
      s.iterations ≤ cfg.maximum_iterations_number ∧
        (s.ended = false → s.iterations < cfg.maximum_iterations_number) := by
  intro k
  induction k with
  | zero =>
    intro s h
    injection h with h1
    rw [← h1]
    exact ⟨Nat.le_of_lt hpos, fun _ => hpos⟩
  | succ n ih =>
    intro s h
    rw [pruneRun_succ] at h
    cases hn2 : pruneRun O cfg n with
    | none => rw [hn2] at h; exact absurd h (by simp)
    | some t =>
      rw [hn2] at h
      dsimp only at h
      by_cases ht : t.ended
      · rw [if_pos ht] at h
        injection h with h1
        exact h1 ▸ ih t hn2
      · rw [if_neg ht] at h
        obtain ⟨r, pr, hpass, hcm⟩ := pruneStep_parts h
        have hlt : t.iterations < cfg.maximum_iterations_number := (ih t hn2).2 (by
          revert ht
          cases t.ended <;> simp)
        have hit : s.iterations = t.iterations + 1 := by
          rw [hcm, pruneCommit_iterations]
        constructor
        · omega
        · intro hend
          rw [hcm] at hend ⊢
          unfold pruneCommit at hend ⊢
          have h3 := pruneApplyStopping_of_ended_false cfg (pruneUpdate O t r pr)
            (O.elapsed_time t.iterations) hend
          have h4 : (pruneUpdate O t r pr).iterations = t.iterations + 1 := by
            simp [pruneUpdate]
          rw [h3.1]
          omega

lemma oracleTwo_no_sentinel : ∀ m, oracleTwo.selection_error m ≠ sentinel := by
  intro m
  show selErrTwo m ≠ sentinel
  unfold selErrTwo
  split_ifs <;> norm_num [sentinel]

lemma step_two : pruneStep oracleTwo cfgTwo (pruneInit oracleTwo cfgTwo) = some stateTwo1 := by
  rw [pruneStep_of_pass innerPass_two, commit_two]

/-- The initial state of the witness order-search instance: the stream value
1/3 selects order 4, whose generalization performance 8 becomes the initial
temperature. -/
def orderStateOne0 : OrderState :=
  { optimal_order := 4, optimum_performance := (4, 8), optimum_parameters := [4],
    temperature := 8, iterations := 0, generalization_failures := 0, rand_pos := 1,
    ended := false, stopping_condition := none }

/-- The state of the witness order-search instance after one iteration: the
candidate 3 (drawn at stream position 1) was accepted (draw 1/3 at position 2
is below the stub Boltzmann probability 1/2 and the errors 8 and 7 are not
within tolerance 1/100), the temperature was halved. -/
def orderStateOne1 : OrderState :=
  { optimal_order := 3, optimum_performance := (3, 7), optimum_parameters := [3],
    temperature := 4, iterations := 1, generalization_failures := 0, rand_pos := 3,
    ended := false, stopping_condition := none }

lemma orderInit_one : orderInit oracleOrderOne cfgOrderOne = orderStateOne0 := by
  with_unfolding_all rfl

lemma genCand_one :
    genCandidate cfgOrderOne oracleOrderOne.random_uniform 4 1 = some (3, 2) := by
  with_unfolding_all rfl

lemma orderStep_of_cand {O : OrderOracle} {cfg : OrderConfig} {s : OrderState} {c p1 : ℕ}
    (h : genCandidate cfg O.random_uniform s.optimal_order s.rand_pos = some (c, p1)) :
    orderStep O cfg s = some (orderCommit O cfg s c p1) := by
  unfold orderStep
  rw [h]

lemma commit_order_one :
    orderCommit oracleOrderOne cfgOrderOne orderStateOne0 3 2 = orderStateOne1 := by
  with_unfolding_all rfl

lemma step_order_one :
    orderStep oracleOrderOne cfgOrderOne orderStateOne0 = some orderStateOne1 := by
  rw [orderStep_of_cand (show genCandidate cfgOrderOne oracleOrderOne.random_uniform
    orderStateOne0.optimal_order orderStateOne0.rand_pos = some (3, 2) from genCand_one)]
  rw [commit_order_one]

lemma run_order_zero : orderRun oracleOrderOne cfgOrderOne 0 = some orderStateOne0 := by
  rw [show orderRun oracleOrderOne cfgOrderOne 0 =
    some (orderInit oracleOrderOne cfgOrderOne) from rfl, orderInit_one]

lemma run_order_one : orderRun oracleOrderOne cfgOrderOne 1 = some orderStateOne1 := by
  rw [orderRun_succ, run_order_zero]
  show (if orderStateOne0.ended then some orderStateOne0
    else orderStep oracleOrderOne cfgOrderOne orderStateOne0) = some orderStateOne1
  rw [if_neg (by decide), step_order_one]

/-- C7 is false as stated: with `minimum_order = 4`, `maximum_order = 10` and
a random stream constantly 0, the first evaluated order is 4, and the first
candidate generated around it is 2, which lies strictly below
`minimum_order` — the window's lower bound `optimal_order - radius` is not
clamped to `minimum_order` (the guard at lines 291-292 compares
`optimal_order` against the radius instead of its distance from
`minimum_order`). -/
theorem C7_counterexample :
    (orderInit oracleOrderZero cfgOrderFour).optimal_order = 4 ∧
      genCandidate cfgOrderFour oracleOrderZero.random_uniform 4 1 = some (2, 2) ∧
      2 < cfgOrderFour.minimum_order := by
  refine ⟨by with_unfolding_all rfl, by with_unfolding_all rfl, by decide⟩

/-- C7 (amended): the candidate is drawn from the window `[L, U]` with
`U = min(maximum_order, optimal_order + radius)` and `L = minimum_order` when
`optimal_order <= radius`, else `L = optimal_order - radius` (which can fall
below `minimum_order`); hence every candidate is at most `maximum_order` (but
not necessarily at least `minimum_order`), the candidate finally used is
never equal to the current optimal order, and after 5 consecutive draws
colliding with the optimal order the candidate is forced to
`optimal_order - 1` unless the optimum sits at `minimum_order`, in which case
(provided it is not also at `maximum_order`) it is forced to
`optimal_order + 1`. -/
theorem C7_candidate_window :
    (∀ (cfg : OrderConfig) (rand : ℕ → ℚ) (opt pos : ℕ),
        cfg.minimum_order ≤ opt → opt ≤ cfg.maximum_order →
        (∀ j, 0 ≤ rand j ∧ rand j ≤ 1) →
        ∀ cand p1, genCandidate cfg rand opt pos = some (cand, p1) →
          cand ≠ opt ∧ cand ≤ cfg.maximum_order) ∧
      (∀ (cfg : OrderConfig) (rand : ℕ → ℚ) (opt pos : ℕ),
        cfg.minimum_order ≤ opt → opt ≠ cfg.minimum_order →
        (∀ j, j ≤ 4 →
          drawOrder (windowLower cfg opt) (windowUpper cfg opt) (rand (pos + j)) = opt) →
        genCandidate cfg rand opt pos = some (opt - 1, pos + 6)) ∧
      (∀ (cfg : OrderConfig) (rand : ℕ → ℚ) (opt pos : ℕ),
        opt = cfg.minimum_order → opt ≠ cfg.maximum_order →
        (∀ j, j ≤ 4 →
          drawOrder (windowLower cfg opt) (windowUpper cfg opt) (rand (pos + j)) = opt) →
        genCandidate cfg rand opt pos = some (opt + 1, pos + 6)) := by
  refine ⟨?_, ?_, ?_⟩
  · intro cfg rand opt pos hmin hmax hrand cand p1 h
    refine ⟨genCandidate_ne h, ?_⟩
    have hLU : windowLower cfg opt ≤ windowUpper cfg opt :=
      le_trans (windowLower_le cfg opt hmin) (le_windowUpper cfg opt hmax)
    have hU : windowUpper cfg opt ≤ cfg.maximum_order := min_le_left _ _
    unfold genCandidate at h
    refine genLoop_le_max cfg rand opt _ _ hmax hU hLU hrand 8 (pos + 1) 0 _ ?_ cand p1 h
    exact le_trans (drawOrder_le (rand pos) hLU (hrand pos).1 (hrand pos).2) hU
  · intro cfg rand opt pos hmin hne hcol
    have hpos : 1 ≤ opt := by omega
    have h0 := hcol 0 (by norm_num)
    rw [Nat.add_zero] at h0
    unfold genCandidate
    rw [h0]
    exact genLoop_forced_down cfg rand opt _ _ pos hne hpos
      (hcol 1 (by norm_num)) (hcol 2 (by norm_num)) (hcol 3 (by norm_num))
      (hcol 4 (by norm_num))
  · intro cfg rand opt pos heq hne2 hcol
    have h0 := hcol 0 (by norm_num)
    rw [Nat.add_zero] at h0
    unfold genCandidate
    rw [h0]
    exact genLoop_forced_up cfg rand opt _ _ pos heq hne2
      (hcol 1 (by norm_num)) (hcol 2 (by norm_num)) (hcol 3 (by norm_num))
      (hcol 4 (by norm_num))

/-- C7 witness: the amended window theorem applied to a concrete instance
(orders 1..10, stream constantly 1/3, optimal order 5, candidate 4). -/
theorem C7_candidate_window_witness :
    cfgOrderOne.minimum_order ≤ 5 ∧ 5 ≤ cfgOrderOne.maximum_order ∧
      genCandidate cfgOrderOne oracleOrderOne.random_uniform 5 0 = some (4, 1) ∧
      (4 ≠ 5 ∧ 4 ≤ cfgOrderOne.maximum_order) :=
  ⟨by decide, by decide, by with_unfolding_all rfl,
    C7_candidate_window.1 cfgOrderOne oracleOrderOne.random_uniform 5 0 (by decide)
      (by decide) (fun j => ⟨by norm_num [oracleOrderOne], by norm_num [oracleOrderOne]⟩)
      4 1 (by with_unfolding_all rfl)⟩

/-- C1 is false as stated in its consequence: in the three-input run whose
oracle returns exactly the sentinel `1e20` as the selection error of one
configuration, iteration 1 deactivates input position 1 under a satisfied
guard (table entry 3 < current selection error 5), yet the recorded selection
error after the accepted removal is `1e20 > 5` — the phantom sentinel shifts
the commit index so the network loses input 0 instead of input 1. -/
theorem C1_counterexample :
    pruneRun oracleThree cfgThree 1 = some stateThree1 ∧
      (pruneInit oracleThree cfgThree).current_inputs.getD 1 false = true ∧
      stateThree1.current_inputs.getD 1 false = false ∧
      stateThree1.best_error < (pruneInit oracleThree cfgThree).current_selection_performance ∧
      (pruneInit oracleThree cfgThree).current_selection_performance <
        stateThree1.current_selection_performance :=
  ⟨run_three_one, by with_unfolding_all rfl, by decide,
    by with_unfolding_all decide, by with_unfolding_all decide⟩

/-- C1 (amended): an input position is permanently deactivated only when it is
the minimal-entry position of the evaluated score table and that entry is
strictly below the selection error current at the start of the iteration
(the guard of line 310, unconditionally); and provided the oracle's selection
errors never collide with the sentinel `1e20`, the recorded selection error
never increases from one iteration to the next, so no accepted removal
increases it. -/
theorem C1_acceptance :
    (∀ (O : PruneOracle) (cfg : PruneConfig) (s s1 : PruneState) (p : ℕ),
        pruneStep O cfg s = some s1 →
          s.current_inputs.getD p false = true →
          s1.current_inputs.getD p false = false →
          s1.best_ratio_index = p ∧
            s1.best_error < s.current_selection_performance) ∧
      (∀ (O : PruneOracle) (cfg : PruneConfig),
        (∀ m, O.selection_error m ≠ sentinel) →
          ∀ k s s1, pruneRun O cfg k = some s → pruneRun O cfg (k + 1) = some s1 →
            s1.current_selection_performance ≤ s.current_selection_performance) := by
  constructor
  · intro O cfg s s1 p hstep hT hF
    obtain ⟨r, pr, hpass, hcm⟩ := pruneStep_parts hstep
    subst hcm
    rw [pruneCommit_current_inputs] at hF
    by_cases hacc : r.getD (calculate_minimal_index r) 0 < s.current_selection_performance
    · rw [if_pos hacc] at hF
      by_cases hpb : p = calculate_minimal_index r
      · subst hpb
        refine ⟨pruneCommit_best_ratio_index O cfg s r pr, ?_⟩
        rw [pruneCommit_best_error]
        exact hacc
      · rw [getD_set_ne _ _ _ (fun he => hpb he.symm)] at hF
        rw [hT] at hF
        exact absurd hF (by simp)
    · rw [if_neg hacc] at hF
      rw [hT] at hF
      exact absurd hF (by simp)
  · intro O cfg hnc k s s1 h h1
    exact prune_sel_monotone O cfg hnc k s s1 h h1

/-- C1 witness: in the collision-free two-input instance, iteration 1
deactivates position 0; the amended theorem yields that position 0 is the
minimal table position with entry below the starting selection error 10, and
that the recorded selection error does not increase across the step. -/
theorem C1_acceptance_witness :
    (pruneInit oracleTwo cfgTwo).current_inputs.getD 0 false = true ∧
      stateTwo1.current_inputs.getD 0 false = false ∧
      (stateTwo1.best_ratio_index = 0 ∧
        stateTwo1.best_error < (pruneInit oracleTwo cfgTwo).current_selection_performance) ∧
      stateTwo1.current_selection_performance ≤
        (pruneInit oracleTwo cfgTwo).current_selection_performance :=
  ⟨by with_unfolding_all rfl, by decide,
    C1_acceptance.1 oracleTwo cfgTwo (pruneInit oracleTwo cfgTwo) stateTwo1 0 step_two
      (by with_unfolding_all rfl) (by decide),
    C1_acceptance.2 oracleTwo cfgTwo oracleTwo_no_sentinel 0 (pruneInit oracleTwo cfgTwo)
      stateTwo1 rfl run_two_one⟩

/-- C3: the code does not implement the claim.  Branch b of the stopping
chain (line 370) tests `final[1]`, the selection error frozen at the initial
evaluation of line 238, not the most-recent selection error of line 332.  In
the two-input run the most-recent selection error after iteration 1 is 1,
strictly below the goal 5, the time predicate is false, yet the run stops
with `MinimumInputs`, because the frozen value 10 is not below the goal. -/
theorem C3_goal_predicate_frozen :
    pruneRun oracleTwo cfgTwo 1 = some stateTwo1 ∧
      stateTwo1.current_selection_performance < cfgTwo.selection_performance_goal ∧
      ¬(stateTwo1.final_selection < cfgTwo.selection_performance_goal) ∧
      ¬(cfgTwo.maximum_time ≤ oracleTwo.elapsed_time 0) ∧
      stateTwo1.stopping_condition = some PruneStoppingCondition.MinimumInputs ∧
      stateTwo1.stopping_condition ≠ some PruneStoppingCondition.SelectionPerformanceGoal :=
  ⟨run_two_one, by decide, by decide, by decide, rfl, by decide⟩

/-- C4 is false as stated: in the three-input run the state after iteration 1
is live (`ended = false`), its input position 2 is active and its table entry
4 is not the sentinel, yet the evaluation pass of iteration 2 produces no
table at all — after skipping the two adjacent sentinels the pass reads
`error_ratios[3]` of a 3-entry table — so no removal error is written for
position 2 (in C++ this read is out of bounds). -/
theorem C4_counterexample :
    pruneRun oracleThree cfgThree 1 = some stateThree1 ∧
      stateThree1.ended = false ∧
      stateThree1.current_inputs.getD 2 false = true ∧
      ratEq (stateThree1.error_ratios.getD 2 0) sentinel = false ∧
      innerPassOf oracleThree stateThree1 = none :=
  ⟨run_three_one, rfl, by decide, by with_unfolding_all rfl, innerPass_three_second⟩

/-- C4 (amended): provided the oracle's selection errors never collide with
the sentinel `1e20`, in every reachable live outer iteration the evaluation
pass succeeds, restores the parameter snapshot after the exploratory
evaluations, and writes, for every currently-active input position `p` whose
table entry is not the sentinel, the selection error of the configuration
with input `p` removed into table position `p`. -/
theorem C4_evaluation_pass (O : PruneOracle) (cfg : PruneConfig)
    (hnc : ∀ m, O.selection_error m ≠ sentinel) (hn : 1 ≤ cfg.inputs_number) :
    ∀ k s, pruneRun O cfg k = some s → s.ended = false →
      ∃ r params1, innerPassOf O s = some (r, params1) ∧ params1 = s.parameters ∧
        ∀ p, p < List.length s.current_inputs → s.current_inputs.getD p false = true →
          s.error_ratios.getD p 0 ≠ sentinel →
          r.getD p 0 = O.selection_error (s.current_inputs.set p false) := by
  intro k s hrun hend
  have hs := prune_reachable O cfg hnc k s hrun hend
  subst hs
  obtain ⟨r, hpass, hrlen, hrval⟩ := innerPass_init O cfg hn
  refine ⟨r, O.initial_parameters, hpass, rfl, ?_⟩
  intro p hp _ _
  have hp2 : p < cfg.inputs_number := by
    rw [show (pruneInit O cfg).current_inputs =
      List.replicate cfg.inputs_number true from rfl, List.length_replicate] at hp
    exact hp
  exact hrval p hp2

/-- C4 witness: the amended evaluation-pass theorem applied to the
collision-free two-input instance at its initial state. -/
theorem C4_evaluation_pass_witness :
    ∃ r params1,
      innerPassOf oracleTwo (pruneInit oracleTwo cfgTwo) = some (r, params1) ∧
        params1 = (pruneInit oracleTwo cfgTwo).parameters ∧
        ∀ p, p < List.length (pruneInit oracleTwo cfgTwo).current_inputs →
          (pruneInit oracleTwo cfgTwo).current_inputs.getD p false = true →
          (pruneInit oracleTwo cfgTwo).error_ratios.getD p 0 ≠ sentinel →
          r.getD p 0 = oracleTwo.selection_error
            ((pruneInit oracleTwo cfgTwo).current_inputs.set p false) :=
  C4_evaluation_pass oracleTwo cfgTwo oracleTwo_no_sentinel (by decide) 0
    (pruneInit oracleTwo cfgTwo) rfl rfl

/-- C9: each run of either search completes at most
`maximum_iterations_number` outer iterations (for any validated configuration,
whose maximum is strictly positive), and when none of the earlier predicates
of the respective stopping chain fires while the incremented iteration
counter has reached the maximum, the run ends with reason
`MaximumIterations`. -/
theorem C9_iteration_bound :
    (∀ (O : PruneOracle) (cfg : PruneConfig), 0 < cfg.maximum_iterations_number →
        ∀ k s, pruneRun O cfg k = some s →
          s.iterations ≤ cfg.maximum_iterations_number ∧
            (s.ended = false → s.iterations < cfg.maximum_iterations_number)) ∧
      (∀ (O : PruneOracle) (cfg : PruneConfig) (s s1 : PruneState),
        pruneStep O cfg s = some s1 →
          ¬(cfg.maximum_time ≤ O.elapsed_time s.iterations) →
          ¬(s.final_selection < cfg.selection_performance_goal) →
          cfg.maximum_iterations_number ≤ s.iterations + 1 →
          s1.ended = true ∧
            s1.stopping_condition = some PruneStoppingCondition.MaximumIterations) ∧
      (∀ (O : OrderOracle) (cfg : OrderConfig), 0 < cfg.maximum_iterations_number →
        ∀ k s, orderRun O cfg k = some s →
          s.iterations ≤ cfg.maximum_iterations_number ∧
            (s.ended = false → s.iterations < cfg.maximum_iterations_number)) ∧
      (∀ (O : OrderOracle) (cfg : OrderConfig) (s s1 : OrderState),
        orderStep O cfg s = some s1 →
          ¬(s1.temperature < cfg.minimum_temperature) →
          ¬(cfg.maximum_time < O.elapsed_time s.iterations) →
          ¬(s1.optimum_performance.2 < cfg.generalization_performance_goal) →
          ¬(cfg.maximum_generalization_failures ≤ s1.generalization_failures) →
          cfg.maximum_iterations_number ≤ s.iterations + 1 →
          s1.ended = true ∧
            s1.stopping_condition = some OrderStoppingCondition.MaximumIterations) := by
  refine ⟨fun O cfg h => pruneRun_iterations_le O cfg h, ?_,
    fun O cfg h => orderRun_iterations_le O cfg h, ?_⟩
  · intro O cfg s s1 hstep ha hb hc
    obtain ⟨r, pr, hpass, hcm⟩ := pruneStep_parts hstep
    subst hcm
    unfold pruneCommit
    have hu_fin : (pruneUpdate O s r pr).final_selection = s.final_selection := by
      simp [pruneUpdate]
    have hu_iter : (pruneUpdate O s r pr).iterations = s.iterations + 1 := by
      simp [pruneUpdate]
    exact pruneApplyStopping_max_iterations cfg _ _ ha (by rw [hu_fin]; exact hb)
      (by rw [hu_iter]; exact hc)
  · intro O cfg s s1 hstep ha hb hc hd he
    obtain ⟨c, p1, hg, hcm⟩ := orderStep_parts hstep
    have e1 : s1.temperature = (orderUpdate O cfg s c p1).temperature := by
      rw [hcm]; unfold orderCommit; rw [orderApplyStopping_temperature]
    have e2 : s1.optimum_performance = (orderUpdate O cfg s c p1).optimum_performance := by
      rw [hcm]; unfold orderCommit; rw [orderApplyStopping_optimum_performance]
    have e3 : s1.generalization_failures =
        (orderUpdate O cfg s c p1).generalization_failures := by
      rw [hcm]; unfold orderCommit; rw [orderApplyStopping_failures]
    have e4 : (orderUpdate O cfg s c p1).iterations = s.iterations + 1 := by
      simp [orderUpdate]
    have h2 := orderApplyStopping_max_iterations cfg (orderUpdate O cfg s c p1)
      (O.elapsed_time s.iterations) (e1 ▸ ha) hb (e2 ▸ hc) (e3 ▸ hd) (e4 ▸ he)
    rw [hcm]
    unfold orderCommit
    exact h2

/-- C9 witness: the iteration bound applied after one completed iteration of
each concrete instance. -/
theorem C9_iteration_bound_witness :
    0 < cfgTwo.maximum_iterations_number ∧
      stateTwo1.iterations ≤ cfgTwo.maximum_iterations_number ∧
      0 < cfgOrderOne.maximum_iterations_number ∧
      orderStateOne1.iterations ≤ cfgOrderOne.maximum_iterations_number :=
  ⟨by decide,
    (C9_iteration_bound.1 oracleTwo cfgTwo (by decide) 1 stateTwo1 run_two_one).1,
    by decide,
    (C9_iteration_bound.2.2.1 oracleOrderOne cfgOrderOne (by decide) 1 orderStateOne1
      run_order_one).1⟩

/-- C10 is false as stated: the three-input run whose oracle returns exactly
the sentinel `1e20` reaches a live state after iteration 1 and its second
iteration accesses `error_ratios` out of bounds (the model's step returns
`none` precisely on an out-of-bounds table index). -/
theorem C10_counterexample :
    pruneRun oracleThree cfgThree 2 = none ∧
      (pruneRun oracleThree cfgThree 1).map PruneState.ended = some false := by
  refine ⟨run_three_two, ?_⟩
  rw [run_three_one]
  rfl

/-- C10 (amended): provided the candidate input count is at least 1 and the
oracle's selection errors never collide with the sentinel `1e20`, every
access of the pruning search to the `error_ratios` table stays in bounds in
every reachable state: no step of any run returns the out-of-bounds marker. -/
theorem C10_table_access (O : PruneOracle) (cfg : PruneConfig)
    (hnc : ∀ m, O.selection_error m ≠ sentinel) (hn : 1 ≤ cfg.inputs_number) :
    ∀ k, (pruneRun O cfg k).isSome = true :=
  prune_progress O cfg hnc hn

/-- C10 witness: in-bounds execution of the collision-free two-input run. -/
theorem C10_table_access_witness : (pruneRun oracleTwo cfgTwo 2).isSome = true :=
  C10_table_access oracleTwo cfgTwo oracleTwo_no_sentinel (by decide) 2

/-- C2 witness: the acceptance-rule theorem applied to the concrete
order-search instance, where candidate 3 is accepted at iteration 1. -/
theorem C2_acceptance_rule_witness :
    (orderStateOne1.optimal_order = 3 ∧
        orderStateOne1.optimum_performance = oracleOrderOne.performances 3 ∧
        orderStateOne1.optimum_parameters = oracleOrderOne.parameters_order 3) ↔
      saAccept oracleOrderOne cfgOrderOne orderStateOne0 3 2 :=
  (C2_acceptance_rule oracleOrderOne cfgOrderOne orderStateOne0 orderStateOne1 3 2
    (show genCandidate cfgOrderOne oracleOrderOne.random_uniform
      orderStateOne0.optimal_order orderStateOne0.rand_pos = some (3, 2) from genCand_one)
    step_order_one).1

/-- C5 witness: the temperature-schedule theorem applied to the concrete
order-search instance (T0 = 8, cooling rate 1/2). -/
theorem C5_temperature_schedule_witness :
    0 < (orderInit oracleOrderOne cfgOrderOne).temperature ∧
      0 < cfgOrderOne.cooling_rate ∧ cfgOrderOne.cooling_rate < 1 ∧
      orderStateOne1.temperature =
        (orderInit oracleOrderOne cfgOrderOne).temperature *
          cfgOrderOne.cooling_rate ^ orderStateOne1.iterations ∧
      orderStateOne1.temperature < orderStateOne0.temperature := by
  have h1 : 0 < (orderInit oracleOrderOne cfgOrderOne).temperature := by
    rw [orderInit_one]
    decide
  have h2 : 0 < cfgOrderOne.cooling_rate := by decide
  have h3 : cfgOrderOne.cooling_rate < 1 := by decide
  exact ⟨h1, h2, h3,
    C5_temperature_schedule.2.1 oracleOrderOne cfgOrderOne 1 orderStateOne1 run_order_one,
    C5_temperature_schedule.2.2.1 oracleOrderOne cfgOrderOne 0 orderStateOne0
      orderStateOne1 h1 h2 h3 run_order_zero rfl run_order_one⟩

/-- C6 witness: the failure-counter theorem applied to the concrete
order-search instance, whose first candidate is accepted, leaving the
cumulative counter unchanged. -/
theorem C6_failure_counter_witness :
    saAccept oracleOrderOne cfgOrderOne orderStateOne0 3 2 ∧
      orderStateOne1.generalization_failures = orderStateOne0.generalization_failures := by
  have hacc : saAccept oracleOrderOne cfgOrderOne orderStateOne0 3 2 := by
    constructor
    · with_unfolding_all decide
    · with_unfolding_all decide
  exact ⟨hacc,
    (C6_failure_counter.1 oracleOrderOne cfgOrderOne orderStateOne0 orderStateOne1 3 2
      (show genCandidate cfgOrderOne oracleOrderOne.random_uniform
        orderStateOne0.optimal_order orderStateOne0.rand_pos = some (3, 2) from genCand_one)
      step_order_one).1 hacc⟩

end OpenNN
